import Mathlib

/-!
Verification of the analysis orchestration engine of the customer-support
triage application (sources: `src/utils/apiClient.js`, `src/utils/llmHelper.js`,
`src/utils/urgencyScorer.js`, `src/utils/templates.js`, `src/pages/AnalyzePage.jsx`).

The JavaScript sources are shallowly embedded: pure functions become Lean
functions, the outcome of each remote `groqRequest` call is passed in
explicitly as a value, JavaScript numbers are modelled as `Int`/`Nat`
(all scores in the sources are integers) and confidences as `ℚ`,
and `Math.random`-driven template selection is an explicit `Nat` parameter.
`JSON.parse` is modelled by an executable JSON parser over a JSON value type
whose numbers are integers (the sources only ever inspect integral scores and
use decimal constants as defaults, which are supplied directly as rationals).
-/

/-! ## JSON values

JavaScript `JSON.parse` produces nested objects; we model the resulting
values with a mutual inductive so that structural (mutual) induction is
available for the parser round-trip proofs.  Numbers are modelled as
integers (see the file comment). -/

mutual

inductive JsonVal where
  | str (s : String)
  | num (n : Int)
  | bool (b : Bool)
  | null
  | arr (xs : JsonList)
  | obj (fs : JsonFields)
deriving DecidableEq, Repr

inductive JsonList where
  | nil
  | cons (v : JsonVal) (tl : JsonList)
deriving DecidableEq, Repr

inductive JsonFields where
  | nil
  | cons (k : String) (v : JsonVal) (tl : JsonFields)
deriving DecidableEq, Repr

end

/-- Last-wins field lookup: `JSON.parse` in JavaScript keeps the last of
duplicate keys, so lookup prefers later fields. -/
def JsonFields.lookupLast : JsonFields → String → Option JsonVal
  | .nil, _ => none
  | .cons k' v tl, k =>
    match JsonFields.lookupLast tl k with
    | some r => some r
    | none => if k' = k then some v else none

/-- Property access `parsed.key` on a decoded JSON value: only objects have
fields. -/
def jsLookup : JsonVal → String → Option JsonVal
  | .obj fs, k => fs.lookupLast k
  | _, _ => none

/-! ## Serialization (the shape `JSON.stringify` produces: no extra
whitespace, strings quoted with `"` and backslash escapes). -/

/-- Digit character for a value below ten. -/
def dchar (r : Nat) : Char := Char.ofNat (48 + r)

/-- Decimal digits of a natural number, most significant first
(accumulator form). -/
def natDigitsAux (n : Nat) (acc : List Char) : List Char :=
  if h : n = 0 then acc
  else natDigitsAux (n / 10) (dchar (n % 10) :: acc)
  termination_by n
  decreasing_by exact Nat.div_lt_self (Nat.pos_of_ne_zero h) (by norm_num)

/-- Decimal digit characters of a natural number. -/
def natDigits (n : Nat) : List Char :=
  if n = 0 then ['0'] else natDigitsAux n []

/-- String-character escaping as `JSON.stringify` performs it (quote,
backslash and the common control characters; other characters are emitted
verbatim). -/
def escChar (c : Char) : List Char :=
  if c = '"' then ['\\', '"']
  else if c = '\\' then ['\\', '\\']
  else if c = '\n' then ['\\', 'n']
  else if c = '\t' then ['\\', 't']
  else if c = '\r' then ['\\', 'r']
  else [c]

/-- Escape a whole character list. -/
def escList (cs : List Char) : List Char := cs.flatMap escChar

mutual

/-- Characters of the `JSON.stringify` serialization of a value. -/
def serVal : JsonVal → List Char
  | .str s => '"' :: (escList s.data ++ ['"'])
  | .num n => if n < 0 then '-' :: natDigits n.natAbs else natDigits n.toNat
  | .bool true => ['t', 'r', 'u', 'e']
  | .bool false => ['f', 'a', 'l', 's', 'e']
  | .null => ['n', 'u', 'l', 'l']
  | .arr xs => '[' :: (serElems xs ++ [']'])
  | .obj fs => '\x7b' :: (serFields fs ++ ['\x7d'])

/-- Comma-separated serialization of array elements. -/
def serElems : JsonList → List Char
  | .nil => []
  | .cons v .nil => serVal v
  | .cons v (.cons w tl) => serVal v ++ (',' :: serElems (.cons w tl))

/-- Comma-separated serialization of object members. -/
def serFields : JsonFields → List Char
  | .nil => []
  | .cons k v .nil => '"' :: (escList k.data ++ ('"' :: ':' :: serVal v))
  | .cons k v (.cons k' w tl) =>
    ('"' :: (escList k.data ++ ('"' :: ':' :: serVal v))) ++
      (',' :: serFields (.cons k' w tl))

end

/-- Serialization of a JSON value as a string. -/
def jsonStringify (v : JsonVal) : String := String.mk (serVal v)

/-! ## Parsing (the model of `JSON.parse`, as used by
`parseJsonResponse` in `src/utils/apiClient.js`). -/

/-- JSON whitespace test. -/
def wsb (c : Char) : Bool := c = ' ' || c = '\n' || c = '\t' || c = '\r'

/-- Skip leading JSON whitespace. -/
def skipWs : List Char → List Char
  | [] => []
  | c :: rest => if wsb c then skipWs rest else c :: rest

/-- Inverse of `escChar` on the escape letter following a backslash. -/
def unesc (c : Char) : Option Char :=
  if c = '"' then some '"'
  else if c = '\\' then some '\\'
  else if c = 'n' then some '\n'
  else if c = 't' then some '\t'
  else if c = 'r' then some '\r'
  else none

/-- Parse the body of a string literal (after the opening quote), returning
the unescaped characters and the remainder after the closing quote. -/
def pStr : List Char → Option (List Char × List Char)
  | [] => none
  | c :: rest =>
    if c = '"' then some ([], rest)
    else if c = '\\' then
      match rest with
      | [] => none
      | e :: rest2 =>
        match unesc e with
        | some u => (pStr rest2).map (fun p => (u :: p.1, p.2))
        | none => none
    else (pStr rest).map (fun p => (c :: p.1, p.2))

/-- Accumulate consecutive decimal digits. -/
def pDigitsAcc : List Char → Nat → Nat × List Char
  | [], acc => (acc, [])
  | c :: rest, acc =>
    if c.isDigit then pDigitsAcc rest (acc * 10 + (c.toNat - 48))
    else (acc, c :: rest)

/-- Parse a natural-number literal (at least one digit required). -/
def pNat : List Char → Option (Nat × List Char)
  | [] => none
  | c :: rest => if c.isDigit then some (pDigitsAcc (c :: rest) 0) else none

mutual

/-- Fuel-indexed JSON value parser. -/
def pVal : Nat → List Char → Option (JsonVal × List Char)
  | 0, _ => none
  | f + 1, cs =>
    match skipWs cs with
    | [] => none
    | c :: rest =>
      if c = '\x7b' then
        match pFields f (skipWs rest) with
        | some (fs, r) => some (.obj fs, r)
        | none => none
      else if c = '[' then
        match pElems f (skipWs rest) with
        | some (xs, r) => some (.arr xs, r)
        | none => none
      else if c = '"' then
        match pStr rest with
        | some (s, r) => some (.str (String.mk s), r)
        | none => none
      else if c = 't' then
        match rest with
        | 'r' :: 'u' :: 'e' :: r => some (.bool true, r)
        | _ => none
      else if c = 'f' then
        match rest with
        | 'a' :: 'l' :: 's' :: 'e' :: r => some (.bool false, r)
        | _ => none
      else if c = 'n' then
        match rest with
        | 'u' :: 'l' :: 'l' :: r => some (.null, r)
        | _ => none
      else if c = '-' then
        match pNat rest with
        | some (n, r) => some (.num (-(n : Int)), r)
        | none => none
      else if c.isDigit then
        match pNat (c :: rest) with
        | some (n, r) => some (.num (n : Int), r)
        | none => none
      else none

/-- Fuel-indexed parser for array elements, entered just after `[` with
whitespace skipped. -/
def pElems : Nat → List Char → Option (JsonList × List Char)
  | 0, _ => none
  | f + 1, cs =>
    match cs with
    | ']' :: rest => some (.nil, rest)
    | _ =>
      match pVal f cs with
      | some (v, r) =>
        match skipWs r with
        | ',' :: r2 =>
          match pElems f (skipWs r2) with
          | some (xs, r3) => some (.cons v xs, r3)
          | none => none
        | ']' :: r2 => some (.cons v .nil, r2)
        | _ => none
      | none => none

/-- Fuel-indexed parser for object members, entered just after the opening
brace with whitespace skipped. -/
def pFields : Nat → List Char → Option (JsonFields × List Char)
  | 0, _ => none
  | f + 1, cs =>
    match cs with
    | '\x7d' :: rest => some (.nil, rest)
    | '"' :: rest =>
      match pStr rest with
      | some (k, r) =>
        match skipWs r with
        | ':' :: r2 =>
          match pVal f (skipWs r2) with
          | some (v, r3) =>
            match skipWs r3 with
            | ',' :: r4 =>
              match pFields f (skipWs r4) with
              | some (fs, r5) => some (.cons (String.mk k) v fs, r5)
              | none => none
            | '\x7d' :: r4 => some (.cons (String.mk k) v .nil, r4)
            | _ => none
          | none => none
        | _ => none
      | none => none
    | _ => none

end

/-- Model of `JSON.parse` applied to a character list: parse one value and
require only whitespace to remain.  Any failure yields `none` (the source
catches the `JSON.parse` exception and returns `null`). -/
def parseJson (cs : List Char) : Option JsonVal :=
  match pVal (cs.length + 1) cs with
  | some (v, rest) => if skipWs rest = [] then some v else none
  | none => none

/-- Leading-digit test on the remaining input (used to state when a number
literal cannot be extended by what follows). -/
def digitHead : List Char → Bool
  | [] => false
  | c :: _ => c.isDigit

mutual

/-- Fuel sufficient for `pVal` on the serialization of a value. -/
def fuelNeeded : JsonVal → Nat
  | .str _ => 1
  | .num _ => 1
  | .bool _ => 1
  | .null => 1
  | .arr xs => 1 + fuelElemsNeeded xs
  | .obj fs => 1 + fuelFieldsNeeded fs

/-- Fuel sufficient for `pElems` on serialized array elements. -/
def fuelElemsNeeded : JsonList → Nat
  | .nil => 1
  | .cons v tl =>
    1 + fuelNeeded v +
      (match tl with
       | .nil => 0
       | .cons _ _ => fuelElemsNeeded tl)

/-- Fuel sufficient for `pFields` on serialized object members. -/
def fuelFieldsNeeded : JsonFields → Nat
  | .nil => 1
  | .cons _ v tl =>
    1 + fuelNeeded v +
      (match tl with
       | .nil => 0
       | .cons _ _ _ => fuelFieldsNeeded tl)

end

/-! ## The `parseJsonResponse` decoder (`src/utils/apiClient.js`, lines 328 to 339)

The source matches the greedy regex over the whole reply: the match, when it
exists, runs from the first brace-open character to the last brace-close
character of the content (provided the latter lies strictly after the
former), and that slice is handed to `JSON.parse`. -/

/-- Model of `content.match` with the greedy brace regex: the slice from the
first opening brace to the last closing brace, when the latter is strictly
after the former; otherwise no match. -/
def extractBraced (cs : List Char) : Option (List Char) :=
  let i := (cs.takeWhile (fun c => c ≠ '\x7b')).length
  let j := cs.length - (cs.reverse.takeWhile (fun c => c ≠ '\x7d')).length
  if i + 1 < j then some ((cs.take j).drop i) else none

/-- Embedding of `parseJsonResponse`: extract the brace-delimited slice and
parse it, yielding `none` on any failure. -/
def parseJsonResponse (content : String) : Option JsonVal :=
  match extractBraced content.data with
  | none => none
  | some slice => parseJson slice

/-! ## JavaScript string helpers

The sources use `toLowerCase`, `toUpperCase`, `includes`, `trim`,
`split(/\s+/)` and character-occurrence counting; we model them over the
character list of the string (the messages involved are plain text). -/

/-- ASCII lower-casing of one character (`String.prototype.toLowerCase`). -/
def charLower (c : Char) : Char :=
  if 'A' ≤ c ∧ c ≤ 'Z' then Char.ofNat (c.toNat + 32) else c

/-- ASCII upper-casing of one character (`String.prototype.toUpperCase`). -/
def charUpper (c : Char) : Char :=
  if 'a' ≤ c ∧ c ≤ 'z' then Char.ofNat (c.toNat - 32) else c

/-- Model of `message.toLowerCase()`. -/
def jsToLower (s : String) : String := String.mk (s.data.map charLower)

/-- Model of `message.toUpperCase()`. -/
def jsToUpper (s : String) : String := String.mk (s.data.map charUpper)

/-- Contiguous-subsequence test on character lists. -/
def listHasSub (needle : List Char) : List Char → Bool
  | [] => needle.isEmpty
  | c :: rest => needle.isPrefixOf (c :: rest) || listHasSub needle rest

/-- Model of `haystack.includes(needle)`: substring containment. -/
def strIncludes (h : String) (n : String) : Bool := listHasSub n.data h.data

/-- Count occurrences of a character (`(message.match(/!/g) || []).length`). -/
def countChar (s : String) (c : Char) : Nat := (s.data.filter (fun d => d = c)).length

/-- Model of `message.trim()`. -/
def jsTrim (s : String) : String :=
  String.mk (((s.data.dropWhile wsb).reverse.dropWhile wsb).reverse)

/-- Model of `message.trim().split(/\s+/).length`: the number of maximal
runs of non-whitespace characters, except that the empty trimmed string
yields one (JavaScript splits it into one empty piece). -/
def jsWordCount (s : String) : Nat :=
  let t := jsTrim s
  if t = "" then 1
  else ((t.data.splitOnP wsb).filter (fun w => w ≠ [])).length

/-! ## Error and remote-call outcome model

The engines invoke `groqRequest` and observe either a returned content
string or a thrown value: an ordinary error object (carrying an HTTP status
for auth failures) or the distinguished `Error('Request cancelled')` that
`groqRequest` substitutes when the external abort signal fired. -/

/-- Thrown JavaScript error as the retry loop inspects it: its `name` and
optional HTTP `status`. -/
structure JsError where
  name : String := ""
  status : Option Nat := none
deriving DecidableEq, Repr

/-- Outcome of one `groqRequest` invocation as seen by a caller. -/
inductive GroqOutcome where
  | ok (content : String)
  | thrown (e : JsError)
  | cancelled
deriving DecidableEq, Repr

/-! ## Signal detection (`src/utils/urgencyScorer.js`, lines 11 to 56) -/

/-- Keyword table `CRITICAL_KEYWORDS`. -/
def CRITICAL_KEYWORDS : List String :=
  ["down", "outage", "emergency", "urgent", "critical", "asap", "immediately",
   "production", "security", "breach", "hack", "compromised", "data loss",
   "cannot access", "can't access", "locked out", "blocked", "deadline",
   "legal", "lawsuit", "compliance", "audit", "executive", "ceo", "cto"]

/-- Keyword table `SYSTEM_IMPACT_KEYWORDS`. -/
def SYSTEM_IMPACT_KEYWORDS : List String :=
  ["all users", "everyone", "entire", "company-wide", "organization",
   "multiple", "team", "department", "customers affected", "widespread"]

/-- Keyword table `BUSINESS_IMPACT_KEYWORDS`. -/
def BUSINESS_IMPACT_KEYWORDS : List String :=
  ["revenue", "money", "losing", "cost", "contract", "client",
   "demo", "presentation", "meeting", "launch", "release"]

/-- Positive-sentiment word list inlined in `detectSignals`. -/
def POSITIVE_WORDS : List String :=
  ["thank", "thanks", "appreciate", "happy", "love", "great", "excellent",
   "wonderful", "amazing"]

/-- Negative-sentiment word list inlined in `detectSignals`. -/
def NEGATIVE_WORDS : List String :=
  ["angry", "frustrated", "furious", "terrible", "awful", "worst",
   "unacceptable", "ridiculous"]

/-- The `Signals` record computed by `detectSignals`. -/
structure Signals where
  hasCriticalKeyword : Bool
  hasSystemImpact : Bool
  hasBusinessImpact : Bool
  exclamationCount : Nat
  questionCount : Nat
  isAllCaps : Bool
  hasPositiveSentiment : Bool
  hasNegativeSentiment : Bool
  messageLength : Nat
  wordCount : Nat
deriving DecidableEq, Repr

/-- Embedding of `detectSignals`. -/
def detectSignals (message : String) : Signals :=
  let lowerMessage := jsToLower message
  { hasCriticalKeyword := CRITICAL_KEYWORDS.any (fun kw => strIncludes lowerMessage kw),
    hasSystemImpact := SYSTEM_IMPACT_KEYWORDS.any (fun kw => strIncludes lowerMessage kw),
    hasBusinessImpact := BUSINESS_IMPACT_KEYWORDS.any (fun kw => strIncludes lowerMessage kw),
    exclamationCount := countChar message '!',
    questionCount := countChar message '?',
    isAllCaps := message == jsToUpper message && decide (message.data.length > 10),
    hasPositiveSentiment := POSITIVE_WORDS.any (fun w => strIncludes lowerMessage w),
    hasNegativeSentiment := NEGATIVE_WORDS.any (fun w => strIncludes lowerMessage w),
    messageLength := message.data.length,
    wordCount := jsWordCount message }

/-! ## Urgency engine (`src/utils/urgencyScorer.js`, lines 65 to 225) -/

/-- The `UrgencyResult` record `{level, score, reasoning, signals}`. -/
structure UrgencyResult where
  level : String
  score : Int
  reasoning : String
  signals : Signals
deriving DecidableEq, Repr

/-- JavaScript truthiness of a JSON value (`0`, the empty string, `false`
and `null` are falsy). -/
def jsTruthy : JsonVal → Bool
  | .str s => s ≠ ""
  | .num n => n ≠ 0
  | .bool b => b
  | .null => false
  | .arr _ => true
  | .obj _ => true

/-- Model of `parsed.key || default` for string-valued fields: absent,
non-string or falsy values give the default.  (The service contract supplies
strings in these fields; a truthy non-string value is outside the model.) -/
def jsStrField (p : JsonVal) (k : String) (d : String) : String :=
  match jsLookup p k with
  | some (.str s) => if s = "" then d else s
  | _ => d

/-- Model of `parsed.key || default` for number-valued fields: absent,
non-numeric or zero values give the default. -/
def jsIntField (p : JsonVal) (k : String) (d : Int) : Int :=
  match jsLookup p k with
  | some (.num n) => if n = 0 then d else n
  | _ => d

/-- Model of `parsed.key || default` for number-valued fields read as
confidences (rational defaults). -/
def jsRatField (p : JsonVal) (k : String) (d : ℚ) : ℚ :=
  match jsLookup p k with
  | some (.num n) => if n = 0 then d else (n : ℚ)
  | _ => d

/-- AI-path construction of the urgency result from a decoded reply
(`calculateUrgency`, lines 113 to 121): each field is copied from the
decoded object with a `||` default. -/
def urgencyFromParsed (parsed : JsonVal) (signals : Signals) : UrgencyResult :=
  { level := jsStrField parsed "level" "Medium",
    score := jsIntField parsed "score" 50,
    reasoning := jsStrField parsed "reasoning" "Unable to determine detailed reasoning.",
    signals := signals }

/-- Level derivation by the fixed thresholds (`getFallbackUrgency`,
lines 198 to 205). -/
def levelOfScore (score : Int) : String :=
  if score ≥ 70 then "High" else if score ≥ 30 then "Medium" else "Low"

/-- Embedding of `getFallbackUrgency` (lines 136 to 215): sequential score
adjustments with accumulated reasons, clamping, threshold level derivation
and reason joining.  The `message` parameter is kept from the source
signature (the body only reads `category` and `signals`). -/
def getFallbackUrgency (message : String) (category : Option String)
    (signals : Signals) : UrgencyResult :=
  let score : Int := 50
  let reasons : List String := []
  let (score, reasons) :=
    if signals.hasCriticalKeyword then
      (score + 35, reasons ++ ["Critical keywords detected indicating urgent issue"])
    else (score, reasons)
  let (score, reasons) :=
    if signals.hasSystemImpact then
      (score + 20, reasons ++ ["Message suggests widespread system impact"])
    else (score, reasons)
  let (score, reasons) :=
    if signals.hasBusinessImpact then
      (score + 15, reasons ++ ["Potential business or revenue impact mentioned"])
    else (score, reasons)
  let (score, reasons) :=
    if signals.hasNegativeSentiment then
      (score + 15, reasons ++ ["Customer expressing frustration or dissatisfaction"])
    else (score, reasons)
  let (score, reasons) :=
    if category = some "Technical Problem" then
      (score + 10, reasons ++ ["Technical issues often require timely resolution"])
    else if category = some "Billing Issue" then
      (score + 5, reasons ++ ["Billing concerns can impact customer retention"])
    else if category = some "Feature Request" then
      (score - 15, reasons ++ ["Feature requests are typically non-urgent"])
    else (score, reasons)
  let (score, reasons) :=
    if signals.hasPositiveSentiment && !signals.hasCriticalKeyword &&
        !signals.hasNegativeSentiment then
      (score - 20, reasons ++ ["Positive sentiment suggests non-urgent matter"])
    else (score, reasons)
  let (score, reasons) :=
    if decide (signals.exclamationCount ≥ 2) &&
        (signals.hasNegativeSentiment || signals.hasCriticalKeyword) then
      (score + 10, reasons ++ ["Emphasis suggests heightened concern"])
    else (score, reasons)
  let (score, reasons) :=
    if decide (signals.questionCount > 0) && !signals.hasCriticalKeyword &&
        !signals.hasNegativeSentiment then
      (score - 10, reasons ++ ["Question format suggests inquiry rather than urgent issue"])
    else (score, reasons)
  let score := max 0 (min 100 score)
  let level := if score ≥ 70 then "High" else if score ≥ 30 then "Medium" else "Low"
  { level := level,
    score := score,
    reasoning :=
      if reasons.length > 0 then String.intercalate ". " reasons ++ "."
      else "Standard priority based on message analysis.",
    signals := signals }

/-- Embedding of `calculateUrgency` (lines 65 to 130): compute the signals,
and on a returned content decode it and build the result from the decoded
fields, falling back to `getFallbackUrgency` when decoding fails; any thrown
error, the cancellation error included, is caught and also answered with the
fallback. -/
def calculateUrgency (message : String) (category : Option String)
    (remote : GroqOutcome) : UrgencyResult :=
  let signals := detectSignals message
  match remote with
  | .ok content =>
    match parseJsonResponse content with
    | some parsed => urgencyFromParsed parsed signals
    | none => getFallbackUrgency message category signals
  | .thrown _ => getFallbackUrgency message category signals
  | .cancelled => getFallbackUrgency message category signals

/-! ## Categorization engine (`src/utils/llmHelper.js`) -/

/-- The `CategoryResult` record `{category, reasoning, confidence}`. -/
structure CategoryResult where
  category : String
  reasoning : String
  confidence : ℚ
deriving DecidableEq, Repr

/-- Keyword table of `CATEGORY_DEFINITIONS` (lines 11 to 28), in object
insertion order. -/
def CATEGORY_KEYWORDS : List (String × List String) :=
  [("Billing Issue",
    ["bill", "payment", "charge", "invoice", "refund", "subscription", "price",
     "cost", "fee", "credit card", "cancel subscription", "renewal", "discount",
     "promo", "coupon"]),
   ("Technical Problem",
    ["bug", "error", "broken", "not working", "crash", "down", "slow", "loading",
     "freeze", "stuck", "fail", "issue", "problem", "glitch", "unresponsive",
     "timeout", "connection"]),
   ("Feature Request",
    ["feature", "add", "improve", "enhancement", "suggestion", "wish",
     "would be great", "would like", "could you add", "missing", "need ability",
     "roadmap"]),
   ("General Inquiry",
    ["how do", "how to", "what is", "where is", "can i", "is there", "help",
     "question", "wondering", "curious", "thank", "thanks", "great job", "love"])]

/-- Category name list, `Object.keys(CATEGORY_DEFINITIONS)`, in insertion
order. -/
def validCategories : List String :=
  ["Billing Issue", "Technical Problem", "Feature Request", "General Inquiry"]

/-- Reasoning templates of `generateFallbackReasoning` (lines 183 to 209). -/
def reasoningTemplates (category : String) : List String :=
  if category = "Billing Issue" then
    ["This message relates to billing, payments, or subscription management. The customer appears to have a financial or account-related concern that needs to be addressed.",
     "The message contains billing-related terminology indicating the customer needs assistance with payments, charges, or their subscription status.",
     "Based on the financial context of this message, this is categorized as a billing issue requiring review of the customer's account."]
  else if category = "Technical Problem" then
    ["The customer is reporting a technical issue or malfunction. This requires investigation to identify the root cause and provide a resolution.",
     "This message describes functionality problems or errors the customer is experiencing. Technical troubleshooting will be needed.",
     "Based on the error or malfunction described, this is a technical support issue that may require engineering review."]
  else if category = "Feature Request" then
    ["The customer is suggesting an improvement or new capability. This feedback should be logged for product team review.",
     "This message contains a feature suggestion or enhancement request. The customer is providing valuable product feedback.",
     "The customer is requesting functionality that doesn't currently exist. This should be tracked as product feedback."]
  else
    ["This appears to be a general question or informational request. The customer is seeking clarification or assistance.",
     "The message is a general inquiry that can likely be addressed with documentation or standard support responses.",
     "This is a general support request or positive feedback that doesn't fall into a specific issue category."]

/-- Embedding of `generateFallbackReasoning`: pick a template by the
(externally supplied) random index `rand` in place of `Math.random`. -/
def generateFallbackReasoning (category : String) (rand : Nat) : String :=
  let templates := reasoningTemplates category
  templates.getD (rand % templates.length) ""

/-- Model of `keyword.split(' ').length`: splitting on the single space
character yields one piece more than the number of space characters, for
any string. -/
def jsSpaceWordCount (kw : String) : Nat :=
  (kw.data.filter (fun c => c = ' ')).length + 1

/-- Per-category keyword score of `getFallbackCategorization` (lines 140
to 148): each keyword found in the lower-cased message contributes its
space-separated word count. -/
def keywordScore (lowerMessage : String) (keywords : List String) : Nat :=
  keywords.foldl
    (fun acc kw => if strIncludes lowerMessage kw then acc + jsSpaceWordCount kw else acc) 0

/-- Raw scores association list, in `CATEGORY_DEFINITIONS` insertion order. -/
def rawCategoryScores (lowerMessage : String) : List (String × Nat) :=
  CATEGORY_KEYWORDS.map (fun p => (p.1, keywordScore lowerMessage p.2))

/-- Score of one category in a scores association list. -/
def scoreOf (scores : List (String × Nat)) (c : String) : Nat :=
  ((scores.lookup c).getD 0)

/-- Embedding of the payment-failure disambiguation (lines 152 to 157): when
both the technical and the billing score are positive and the message couples
"payment" with "fail" or "error", the billing score gains 2. -/
def adjustedCategoryScores (lowerMessage : String) : List (String × Nat) :=
  let scores := rawCategoryScores lowerMessage
  if scoreOf scores "Technical Problem" > 0 ∧ scoreOf scores "Billing Issue" > 0 then
    if strIncludes lowerMessage "payment" &&
        (strIncludes lowerMessage "fail" || strIncludes lowerMessage "error") then
      scores.map (fun p => if p.1 = "Billing Issue" then (p.1, p.2 + 2) else p)
    else scores
  else scores

/-- Embedding of `getFallbackCategorization` (lines 135 to 178). -/
def getFallbackCategorization (message : String) (rand : Nat) : CategoryResult :=
  let lowerMessage := jsToLower message
  let scores := adjustedCategoryScores lowerMessage
  let best := scores.foldl
    (fun b p => if p.2 > b.2 then p else b) ("General Inquiry", 0)
  { category := best.1,
    reasoning := generateFallbackReasoning best.1 rand,
    confidence := if best.2 > 2 then 0.8 else if best.2 > 0 then 0.6 else 0.4 }

/-- Embedding of `extractCategoryFromProse` (lines 115 to 130): scan the
fixed category names in insertion order and return the first whose name
occurs case-insensitively in the reply, with confidence 0.7; otherwise use
the deterministic fallback on the original message. -/
def extractCategoryFromProse (content originalMessage : String) (rand : Nat) : CategoryResult :=
  let lowerContent := jsToLower content
  match validCategories.find? (fun c => strIncludes lowerContent (jsToLower c)) with
  | some c => { category := c, reasoning := content, confidence := 0.7 }
  | none => getFallbackCategorization originalMessage rand

/-- Reply handling of `categorizeMessage` (lines 90 to 104): a decoded
object is validated against the fixed category set (falling back to the
literal category "Unknown"), with `||` defaults for reasoning and
confidence; an undecodable reply goes to the prose extractor. -/
def categorizeFromContent (content message : String) (rand : Nat) : CategoryResult :=
  match parseJsonResponse content with
  | some parsed =>
    let category :=
      match jsLookup parsed "category" with
      | some (.str s) => if validCategories.contains s then s else "Unknown"
      | _ => "Unknown"
    { category := category,
      reasoning := jsStrField parsed "reasoning" content,
      confidence := jsRatField parsed "confidence" 0.8 }
  | none => extractCategoryFromProse content message rand

/-- Embedding of `categorizeMessage` (lines 36 to 110): any thrown error,
the cancellation error included, is caught and answered with the
deterministic fallback. -/
def categorizeMessage (message : String) (remote : GroqOutcome) (rand : Nat) : CategoryResult :=
  match remote with
  | .ok content => categorizeFromContent content message rand
  | .thrown _ => getFallbackCategorization message rand
  | .cancelled => getFallbackCategorization message rand

/-! ## Resilient call client (`src/utils/apiClient.js`, lines 246 to 323)

The retry loop is embedded over an explicit environment: `outcomes i` is
what attempt `i` of the underlying `client.chat.completions.create` call
produces (a content string or a thrown error), and `externalAborted` is
whether the external abort signal has fired.  The embedding returns, besides
the outcome, the number of attempts made and the list of sleep delays in
milliseconds. -/

/-- Configuration constant `CONFIG.maxRetries`. -/
def CONFIG_maxRetries : Nat := 2

/-- Configuration constant `CONFIG.retryDelay` (milliseconds). -/
def CONFIG_retryDelay : Nat := 1000

/-- Configuration constant `CONFIG.retryBackoff`. -/
def CONFIG_retryBackoff : Nat := 2

/-- One iteration structure of the `groqRequest` retry loop: on a thrown
error, a manual abort becomes the distinguished cancellation error, an
HTTP 401/403 is rethrown immediately, and otherwise the loop sleeps
`retryDelay * backoff ^ attempt` and retries while iterations remain,
finally rethrowing the last observed error. -/
def groqLoop (outcomes : Nat → Except JsError String) (externalAborted : Bool) :
    Nat → Nat → GroqOutcome × Nat × List Nat
  | _, 0 => (.thrown { name := "", status := none }, 0, [])
  | attempt, n + 1 =>
    match outcomes attempt with
    | .ok content => (.ok content, 1, [])
    | .error e =>
      if e.name = "AbortError" ∧ externalAborted = true then (.cancelled, 1, [])
      else if e.status = some 401 ∨ e.status = some 403 then (.thrown e, 1, [])
      else if n = 0 then (.thrown e, 1, [])
      else
        let d := CONFIG_retryDelay * CONFIG_retryBackoff ^ attempt
        let r := groqLoop outcomes externalAborted (attempt + 1) n
        (r.1, r.2.1 + 1, d :: r.2.2)

/-- Embedding of `groqRequest`: run the loop for `maxRetries + 1` attempts
starting at attempt 0. -/
def groqRequest (outcomes : Nat → Except JsError String) (externalAborted : Bool) :
    GroqOutcome × Nat × List Nat :=
  groqLoop outcomes externalAborted 0 (CONFIG_maxRetries + 1)

/-! ## Action engine (`src/utils/templates.js`) -/

/-- The `{action, escalate, escalateReason}` record of the action engine. -/
structure ActionResult where
  action : String
  escalate : Bool
  escalateReason : Option String
deriving DecidableEq, Repr

/-- Escalation trigger table of `getFallbackRecommendation` (lines 90
to 96), in order: security, legal, churn risk, VIP, system-wide. -/
def escalationTriggers : List (List String × String) :=
  [(["security", "breach", "hack", "compromised"],
    "Security concern requires immediate escalation to security team"),
   (["legal", "lawyer", "lawsuit", "sue"],
    "Legal mention requires escalation to legal/compliance team"),
   (["cancel", "leaving", "competitor"],
    "Churn risk - escalate to retention team"),
   (["ceo", "cto", "executive", "vip"],
    "Executive/VIP customer requires priority handling"),
   (["all users", "everyone", "company-wide", "outage"],
    "System-wide issue affecting multiple users")]

/-- The for-loop with `break` over `escalationTriggers` (lines 98 to 104):
first group with any keyword match wins. -/
def scanTriggers (lowerMessage : String) : List (List String × String) → Option String
  | [] => none
  | (kws, reason) :: rest =>
    if kws.any (fun kw => strIncludes lowerMessage kw) then some reason
    else scanTriggers lowerMessage rest

/-- Generic high-urgency escalation reason (line 109). -/
def HIGH_URGENCY_REASON : String :=
  "High urgency issue requires immediate supervisor attention"

/-- Category-specific action text of `getFallbackRecommendation`
(lines 113 to 160). -/
def fallbackActionText (lowerMessage category : String) : String :=
  if category = "Billing Issue" then
    if strIncludes lowerMessage "refund" then
      "Review the customer's billing history and recent transactions. If refund is warranted per company policy, process it and confirm with the customer. Document the reason for the refund."
    else if strIncludes lowerMessage "charge" || strIncludes lowerMessage "charged" then
      "Pull up the customer's account to review recent charges. Explain each charge clearly, and if there's an error, initiate a correction. Provide an itemized breakdown if requested."
    else if strIncludes lowerMessage "cancel" then
      "Understand the reason for cancellation. Offer retention options if available (discount, plan change, pause). If proceeding with cancellation, explain the process and any final billing."
    else
      "Access the customer's billing portal to review their account status, recent invoices, and payment history. Address the specific concern and offer to walk them through any unclear charges."
  else if category = "Technical Problem" then
    if strIncludes lowerMessage "login" || strIncludes lowerMessage "password" ||
        strIncludes lowerMessage "access" then
      "Verify the customer's identity, then check their account status for locks or flags. If locked out, initiate password reset or account recovery. Check for any system-wide authentication issues."
    else if strIncludes lowerMessage "slow" || strIncludes lowerMessage "performance" then
      "Check system status page for known performance issues. Gather specifics: browser, device, network. If isolated issue, guide through cache clearing and basic troubleshooting. If widespread, escalate to engineering."
    else if strIncludes lowerMessage "error" || strIncludes lowerMessage "bug" then
      "Request error details (screenshot, error code, steps to reproduce). Check known issues database. If new issue, document thoroughly and create a bug report for engineering team."
    else if strIncludes lowerMessage "down" || strIncludes lowerMessage "not working" then
      "Immediately check system status and recent incident reports. If confirmed outage, provide status update and ETA if available. If user-specific, gather diagnostic information and troubleshoot."
    else
      "Gather specific details about the issue: what they were trying to do, what happened, any error messages. Check for known issues, then provide targeted troubleshooting steps."
  else if category = "Feature Request" then
    let base := "Thank the customer for their feedback. Log the feature request in the product feedback system with full context. If similar features exist, explain current capabilities. Share the product roadmap link if public."
    if strIncludes lowerMessage "urgent" || strIncludes lowerMessage "need" then
      base ++ " Since this seems important for their workflow, check if there's a workaround or integration that could help in the meantime."
    else base
  else if category = "General Inquiry" then
    if strIncludes lowerMessage "pricing" || strIncludes lowerMessage "cost" ||
        strIncludes lowerMessage "plan" then
      "Direct the customer to the pricing page and highlight plans that match their described needs. Offer to schedule a call with sales for custom requirements or volume discounts."
    else if strIncludes lowerMessage "how" || strIncludes lowerMessage "tutorial" then
      "Provide a direct link to the relevant help article or documentation. Offer to walk them through the process if documentation isn't sufficient. Consider if this gap indicates need for better docs."
    else
      "Review available documentation and FAQ to provide a comprehensive answer. If the question reveals a gap in self-service resources, flag it for documentation improvement."
  else
    "Review the message carefully to understand the customer's core need. Categorize appropriately if miscategorized, or gather more information if the request is unclear."

/-- Embedding of `getFallbackRecommendation` (lines 83 to 167). -/
def getFallbackRecommendation (message category urgency : String) : ActionResult :=
  let lowerMessage := jsToLower message
  let (escalate, escalateReason) :=
    match scanTriggers lowerMessage escalationTriggers with
    | some r => (true, some r)
    | none => (false, (none : Option String))
  let (escalate, escalateReason) :=
    if urgency = "High" ∧ escalate = false then (true, some HIGH_URGENCY_REASON)
    else (escalate, escalateReason)
  { action := fallbackActionText lowerMessage category,
    escalate := escalate,
    escalateReason := escalateReason }

/-- Model of `parsed.escalate || false` (boolean field; a truthy non-boolean
value is outside the model). -/
def jsBoolField (p : JsonVal) (k : String) : Bool :=
  match jsLookup p k with
  | some (.bool b) => b
  | _ => false

/-- Model of `parsed.escalateReason || null` (string-or-absent field). -/
def jsStrOptField (p : JsonVal) (k : String) : Option String :=
  match jsLookup p k with
  | some (.str s) => if s = "" then none else some s
  | _ => none

/-- Embedding of `getRecommendedAction` (`src/utils/templates.js`, lines 17
to 78): decoded replies supply the fields with `||` defaults; an
undecodable reply or any thrown error, the cancellation error included,
is answered with the fallback recommendation. -/
def getRecommendedAction (message category urgency : String) (remote : GroqOutcome) :
    ActionResult :=
  match remote with
  | .ok content =>
    match parseJsonResponse content with
    | some parsed =>
      { action := jsStrField parsed "action" "Review the message and respond appropriately.",
        escalate := jsBoolField parsed "escalate",
        escalateReason := jsStrOptField parsed "escalateReason" }
    | none => getFallbackRecommendation message category urgency
  | .thrown _ => getFallbackRecommendation message category urgency
  | .cancelled => getFallbackRecommendation message category urgency

/-! ## Analysis orchestrator (`src/pages/AnalyzePage.jsx`, `handleAnalyze`,
lines 41 to 107)

The orchestrator runs categorization and urgency (urgency is invoked with
`null` as the category), then the action stage with the resolved category
and urgency level, assembles the analysis record and appends it to the
stored history.  The creation timestamp is an external clock effect and is
omitted from the record.  In the source every stage catches its own errors,
so the surrounding `try` never observes a throw and the record is always
assembled and persisted. -/

/-- The assembled analysis record (`analysisResult`, lines 76 to 87,
without the timestamp). -/
structure TriageRecord where
  message : String
  category : String
  urgency : String
  urgencyScore : Int
  urgencyReasoning : String
  recommendedAction : String
  escalate : Bool
  escalateReason : Option String
  reasoning : String
deriving DecidableEq, Repr

/-- Stage sequencing and record assembly of `handleAnalyze`: the three
remote outcomes are those observed by the categorization, urgency and
action stages respectively. -/
def analyzeRecord (message : String) (catRemote urgRemote actRemote : GroqOutcome)
    (rand : Nat) : TriageRecord :=
  let categoryResult := categorizeMessage message catRemote rand
  let urgencyResult := calculateUrgency message none urgRemote
  let actionResult :=
    getRecommendedAction message categoryResult.category urgencyResult.level actRemote
  { message := message,
    category := categoryResult.category,
    urgency := urgencyResult.level,
    urgencyScore := urgencyResult.score,
    urgencyReasoning := urgencyResult.reasoning,
    recommendedAction := actionResult.action,
    escalate := actionResult.escalate,
    escalateReason := actionResult.escalateReason,
    reasoning := categoryResult.reasoning }

/-- Embedding of `handleAnalyze`: produce the record, persist it to the
history, and expose it as the displayed result. -/
def handleAnalyze (history : List TriageRecord) (message : String)
    (catRemote urgRemote actRemote : GroqOutcome) (rand : Nat) :
    List TriageRecord × Option TriageRecord :=
  let record := analyzeRecord message catRemote urgRemote actRemote rand
  (history ++ [record], some record)

/-! ## Specification-side formulas

These definitions follow the specification text (for comparison against the
embedded source functions); the claims relate them to the embeddings
above. -/

/-- Category score as the specification states it: the sum, per category,
of the word count of every fixed keyword found case-insensitively in the
message, plus a fixed bonus of 2 on the billing score when the message
couples "payment" with "fail" or "error". -/
def specCategoryScore (message : String) (c : String) : Nat :=
  keywordScore (jsToLower message) ((CATEGORY_KEYWORDS.lookup c).getD []) +
    (if c = "Billing Issue" ∧ strIncludes (jsToLower message) "payment" = true ∧
        (strIncludes (jsToLower message) "fail" = true ∨
         strIncludes (jsToLower message) "error" = true) then 2 else 0)

/-- Clamp a score into the interval from 0 to 100. -/
def clampScore (x : Int) : Int := max 0 (min 100 x)

/-- Fallback urgency score as the specification states it: 50 plus the sum
of the additive adjustments. -/
def specUrgencyScore (category : Option String) (s : Signals) : Int :=
  50 + (if s.hasCriticalKeyword then 35 else 0)
     + (if s.hasSystemImpact then 20 else 0)
     + (if s.hasBusinessImpact then 15 else 0)
     + (if s.hasNegativeSentiment then 15 else 0)
     + (if category = some "Technical Problem" then 10 else 0)
     + (if category = some "Billing Issue" then 5 else 0)
     - (if category = some "Feature Request" then 15 else 0)
     - (if s.hasPositiveSentiment && !s.hasCriticalKeyword && !s.hasNegativeSentiment
        then 20 else 0)
     + (if decide (s.exclamationCount ≥ 2) && (s.hasNegativeSentiment || s.hasCriticalKeyword)
        then 10 else 0)
     - (if decide (s.questionCount > 0) && !s.hasCriticalKeyword && !s.hasNegativeSentiment
        then 10 else 0)

/-- Accumulated reason sentences, in adjustment order, as the specification
states them. -/
def specUrgencyReasons (category : Option String) (s : Signals) : List String :=
  (if s.hasCriticalKeyword then ["Critical keywords detected indicating urgent issue"] else [])
  ++ (if s.hasSystemImpact then ["Message suggests widespread system impact"] else [])
  ++ (if s.hasBusinessImpact then ["Potential business or revenue impact mentioned"] else [])
  ++ (if s.hasNegativeSentiment then ["Customer expressing frustration or dissatisfaction"] else [])
  ++ (if category = some "Technical Problem" then ["Technical issues often require timely resolution"]
      else if category = some "Billing Issue" then ["Billing concerns can impact customer retention"]
      else if category = some "Feature Request" then ["Feature requests are typically non-urgent"]
      else [])
  ++ (if s.hasPositiveSentiment && !s.hasCriticalKeyword && !s.hasNegativeSentiment
      then ["Positive sentiment suggests non-urgent matter"] else [])
  ++ (if decide (s.exclamationCount ≥ 2) && (s.hasNegativeSentiment || s.hasCriticalKeyword)
      then ["Emphasis suggests heightened concern"] else [])
  ++ (if decide (s.questionCount > 0) && !s.hasCriticalKeyword && !s.hasNegativeSentiment
      then ["Question format suggests inquiry rather than urgent issue"] else [])

/-- Join accumulated reasons into period-separated sentences, or the default
sentence when none triggered. -/
def joinReasons (reasons : List String) : String :=
  if reasons.length > 0 then String.intercalate ". " reasons ++ "."
  else "Standard priority based on message analysis."

/-! ## Helper lemmas -/

/-- Rewrite one additive accumulation step of `getFallbackUrgency` into
sum-of-conditionals form. -/
theorem prodStep (c : Prop) [Decidable c] (sc d : Int) (rs : List String) (r : String) :
    (if c then (sc + d, rs ++ [r]) else (sc, rs)) =
      (sc + (if c then d else 0), rs ++ (if c then [r] else [])) := by
  split_ifs <;> simp

/-- Rewrite one subtractive accumulation step of `getFallbackUrgency` into
sum-of-conditionals form. -/
theorem prodStepSub (c : Prop) [Decidable c] (sc d : Int) (rs : List String) (r : String) :
    (if c then (sc - d, rs ++ [r]) else (sc, rs)) =
      (sc - (if c then d else 0), rs ++ (if c then [r] else [])) := by
  split_ifs <;> simp

/-- Rewrite the category adjustment chain of `getFallbackUrgency` into
sum-of-conditionals form (the three category tests are mutually
exclusive). -/
theorem prodStepCat (category : Option String) (sc : Int) (rs : List String) :
    (if category = some "Technical Problem" then
        (sc + 10, rs ++ ["Technical issues often require timely resolution"])
     else if category = some "Billing Issue" then
        (sc + 5, rs ++ ["Billing concerns can impact customer retention"])
     else if category = some "Feature Request" then
        (sc - 15, rs ++ ["Feature requests are typically non-urgent"])
     else (sc, rs)) =
      (sc + (if category = some "Technical Problem" then 10 else 0)
          + (if category = some "Billing Issue" then 5 else 0)
          - (if category = some "Feature Request" then 15 else 0),
       rs ++ (if category = some "Technical Problem" then
                ["Technical issues often require timely resolution"]
              else if category = some "Billing Issue" then
                ["Billing concerns can impact customer retention"]
              else if category = some "Feature Request" then
                ["Feature requests are typically non-urgent"]
              else [])) := by
  by_cases hT : category = some "Technical Problem" <;>
  by_cases hB : category = some "Billing Issue" <;>
  by_cases hF : category = some "Feature Request" <;>
  simp_all

/-- The fallback urgency computation equals the specification formula:
clamped additive score, threshold level, joined reasons. -/
theorem getFallbackUrgency_spec (message : String) (category : Option String)
    (signals : Signals) :
    getFallbackUrgency message category signals =
      { level := levelOfScore (clampScore (specUrgencyScore category signals)),
        score := clampScore (specUrgencyScore category signals),
        reasoning := joinReasons (specUrgencyReasons category signals),
        signals := signals } := by
  simp only [getFallbackUrgency]
  simp only [prodStepCat]
  simp only [prodStep, prodStepSub]
  simp only [specUrgencyScore, specUrgencyReasons, joinReasons, clampScore, levelOfScore,
    List.nil_append, List.append_assoc]

/-- Threshold characterization of `levelOfScore`. -/
theorem levelOfScore_iff (s : Int) :
    (levelOfScore s = "High" ↔ 70 ≤ s) ∧
    (levelOfScore s = "Medium" ↔ 30 ≤ s ∧ s < 70) ∧
    (levelOfScore s = "Low" ↔ s < 30) := by
  unfold levelOfScore
  split_ifs <;> simp <;> omega

/-! ## Claim theorems -/

/-- Claim C7: for every message, category and signals value, the fallback
urgency starts at 50, applies exactly the specified additive adjustments,
clamps the result to the interval from 0 to 100, derives the level from the
fixed thresholds, and joins the accumulated reasons into period-separated
sentences or the single default sentence. -/
theorem C7_fallback_urgency_formula (message : String) (category : Option String)
    (signals : Signals) :
    getFallbackUrgency message category signals =
      { level := levelOfScore (clampScore (specUrgencyScore category signals)),
        score := clampScore (specUrgencyScore category signals),
        reasoning := joinReasons (specUrgencyReasons category signals),
        signals := signals } :=
  getFallbackUrgency_spec message category signals

/-- Claim C1, counterexample: on the AI path a decoded reply with level
"High" and score 10 produces an `UrgencyResult` whose level is not the one
the fixed thresholds derive from its score (score 10 demands "Low"), so the
stated invariant fails for the AI-backed path. -/
theorem C1_counterexample :
    (calculateUrgency "m" none (.ok "\x7b\"level\": \"High\", \"score\": 10\x7d")).level
        = "High" ∧
    (calculateUrgency "m" none (.ok "\x7b\"level\": \"High\", \"score\": 10\x7d")).score
        = 10 ∧
    levelOfScore
        (calculateUrgency "m" none (.ok "\x7b\"level\": \"High\", \"score\": 10\x7d")).score
        = "Low" ∧
    (calculateUrgency "m" none (.ok "\x7b\"level\": \"High\", \"score\": 10\x7d")).level
        ≠ levelOfScore
          (calculateUrgency "m" none (.ok "\x7b\"level\": \"High\", \"score\": 10\x7d")).score := by
  decide

/-- Claim C1, amended: the threshold derivation of level from score holds
for every fallback-path result (level is "High" iff score at least 70,
"Medium" iff score in the interval from 30 below 70, "Low" iff score below
30), while the AI path copies level and score independently from the
decoded reply (with defaults "Medium" and 50) and does not enforce the
derivation. -/
theorem C1_amended_threshold_invariant (message : String) (category : Option String)
    (signals : Signals) (parsed : JsonVal) :
    (((getFallbackUrgency message category signals).level = "High" ↔
        70 ≤ (getFallbackUrgency message category signals).score) ∧
     ((getFallbackUrgency message category signals).level = "Medium" ↔
        30 ≤ (getFallbackUrgency message category signals).score ∧
        (getFallbackUrgency message category signals).score < 70) ∧
     ((getFallbackUrgency message category signals).level = "Low" ↔
        (getFallbackUrgency message category signals).score < 30)) ∧
    ((urgencyFromParsed parsed signals).level = jsStrField parsed "level" "Medium" ∧
     (urgencyFromParsed parsed signals).score = jsIntField parsed "score" 50) := by
  constructor
  · rw [getFallbackUrgency_spec]
    exact levelOfScore_iff (clampScore (specUrgencyScore category signals))
  · exact ⟨rfl, rfl⟩

/-- Claim C10: on the AI path of the urgency engine a decoded score field
equal to 0 is replaced by the default 50 (and an empty level string by
"Medium"), and the AI-path result can never carry score 0. -/
theorem C10_ai_path_zero_score (parsed : JsonVal) (signals : Signals) :
    (jsLookup parsed "score" = some (.num 0) →
      (urgencyFromParsed parsed signals).score = 50) ∧
    (jsLookup parsed "level" = some (.str "") →
      (urgencyFromParsed parsed signals).level = "Medium") ∧
    (urgencyFromParsed parsed signals).score ≠ 0 := by
  refine ⟨fun h => ?_, fun h => ?_, ?_⟩
  · simp [urgencyFromParsed, jsIntField, h]
  · simp [urgencyFromParsed, jsStrField, h]
  · simp only [urgencyFromParsed, jsIntField]
    rcases hl : jsLookup parsed "score" with _ | v
    · norm_num
    · rcases v with s | n | b | _ | xs | fs <;> try norm_num
      split_ifs with h0
      · norm_num
      · exact h0

/-- Witness for claim C10 at a concrete decoded reply carrying score 0 and
an empty level. -/
theorem C10_witness :
    jsLookup (JsonVal.obj (.cons "level" (.str "") (.cons "score" (.num 0) .nil))) "score"
        = some (.num 0) ∧
    jsLookup (JsonVal.obj (.cons "level" (.str "") (.cons "score" (.num 0) .nil))) "level"
        = some (.str "") ∧
    (urgencyFromParsed (JsonVal.obj (.cons "level" (.str "") (.cons "score" (.num 0) .nil)))
        (detectSignals "m")).score = 50 ∧
    (urgencyFromParsed (JsonVal.obj (.cons "level" (.str "") (.cons "score" (.num 0) .nil)))
        (detectSignals "m")).level = "Medium" :=
  ⟨rfl, rfl,
   (C10_ai_path_zero_score (JsonVal.obj (.cons "level" (.str "")
      (.cons "score" (.num 0) .nil))) (detectSignals "m")).1 rfl,
   (C10_ai_path_zero_score (JsonVal.obj (.cons "level" (.str "")
      (.cons "score" (.num 0) .nil))) (detectSignals "m")).2.1 rfl⟩

/-- Retry-exhaustion behaviour of the `groqRequest` loop: when every
attempt in range fails with a retryable error, the loop makes all its
attempts, sleeps the exponentially growing delays, and rethrows the last
observed error. -/
theorem groqLoop_retry_exhaust (outcomes : Nat → Except JsError String) (ext : Bool) :
    ∀ (n attempt : Nat),
      (∀ i, attempt ≤ i → i ≤ attempt + n → ∃ e, outcomes i = .error e ∧
          ¬(e.name = "AbortError" ∧ ext = true) ∧
          ¬(e.status = some 401 ∨ e.status = some 403)) →
      ∃ e, outcomes (attempt + n) = .error e ∧
        groqLoop outcomes ext attempt (n + 1) =
          (.thrown e, n + 1,
           (List.range n).map (fun k => CONFIG_retryDelay * CONFIG_retryBackoff ^ (attempt + k))) := by
  intro n
  induction n with
  | zero =>
    intro attempt h
    obtain ⟨e, he, ha, hs⟩ := h attempt le_rfl (by omega)
    refine ⟨e, by simpa using he, ?_⟩
    simp [groqLoop, he, ha, hs]
  | succ m ih =>
    intro attempt h
    obtain ⟨e0, he0, ha0, hs0⟩ := h attempt le_rfl (by omega)
    obtain ⟨e, he, hrec⟩ := ih (attempt + 1) (fun i h1 h2 => h i (by omega) (by omega))
    refine ⟨e, ?_, ?_⟩
    · rw [show attempt + (m + 1) = attempt + 1 + m by omega]
      exact he
    · have hstep : groqLoop outcomes ext attempt (m + 1 + 1) =
          (match outcomes attempt with
           | .ok content => (.ok content, 1, [])
           | .error e =>
             if e.name = "AbortError" ∧ ext = true then (.cancelled, 1, [])
             else if e.status = some 401 ∨ e.status = some 403 then (.thrown e, 1, [])
             else if m + 1 = 0 then (.thrown e, 1, [])
             else
               let d := CONFIG_retryDelay * CONFIG_retryBackoff ^ attempt
               let r := groqLoop outcomes ext (attempt + 1) (m + 1)
               (r.1, r.2.1 + 1, d :: r.2.2)) := rfl
      rw [hstep, he0]
      simp only []
      rw [if_neg ha0, if_neg hs0, if_neg (by omega : ¬(m + 1 = 0))]
      rw [hrec]
      refine congrArg _ (congrArg _ ?_)
      rw [List.range_succ_eq_map, List.map_cons, List.map_map]
      refine congrArg₂ _ (by rw [Nat.add_zero]) ?_
      refine List.map_congr_left (fun k _ => ?_)
      simp only [Function.comp_apply]
      rw [show attempt + 1 + k = attempt + (k + 1) by omega]

/-- Claim C3: a call in which all three attempts fail with a retryable
error makes exactly 3 attempts, sleeps the non-decreasing delays of 1000
then 2000 milliseconds (1 then 2 time-units), and rethrows the last
observed error unmodified; an authentication failure (HTTP 401 or 403) on
the first attempt surfaces immediately after exactly 1 attempt. -/
theorem C3_retry_and_auth (outcomes : Nat → Except JsError String) (ext : Bool) :
    ((∀ i, i < 3 → ∃ e, outcomes i = .error e ∧
        ¬(e.name = "AbortError" ∧ ext = true) ∧
        ¬(e.status = some 401 ∨ e.status = some 403)) →
      ∃ e2, outcomes 2 = .error e2 ∧
        groqRequest outcomes ext = (.thrown e2, 3, [1000, 2000]) ∧
        List.Chain' (fun a b => a ≤ b) (groqRequest outcomes ext).2.2) ∧
    (∀ e, outcomes 0 = .error e →
      ¬(e.name = "AbortError" ∧ ext = true) →
      (e.status = some 401 ∨ e.status = some 403) →
      groqRequest outcomes ext = (.thrown e, 1, [])) := by
  constructor
  · intro h
    obtain ⟨e, he, hloop⟩ :=
      groqLoop_retry_exhaust outcomes ext 2 0 (fun i h1 h2 => h i (by omega))
    have hreq : groqRequest outcomes ext = groqLoop outcomes ext 0 (2 + 1) := rfl
    have hdelays : (List.range 2).map
        (fun k => CONFIG_retryDelay * CONFIG_retryBackoff ^ (0 + k)) = [1000, 2000] := by
      decide
    refine ⟨e, by simpa using he, ?_, ?_⟩
    · rw [hreq, hloop, hdelays]
    · rw [hreq, hloop, hdelays]
      simp
  · intro e he ha hs
    have hreq : groqRequest outcomes ext =
        match outcomes 0 with
        | .ok content => (.ok content, 1, [])
        | .error e =>
          if e.name = "AbortError" ∧ ext = true then (.cancelled, 1, [])
          else if e.status = some 401 ∨ e.status = some 403 then (.thrown e, 1, [])
          else if CONFIG_maxRetries = 0 then (.thrown e, 1, [])
          else
            let d := CONFIG_retryDelay * CONFIG_retryBackoff ^ 0
            let r := groqLoop outcomes ext 1 CONFIG_maxRetries
            (r.1, r.2.1 + 1, d :: r.2.2) := rfl
    rw [hreq, he]
    simp [ha, hs]

/-- Witness for claim C3: a run whose attempts all time out, and a run
whose first attempt is rejected with HTTP 401. -/
theorem C3_witness :
    groqRequest (fun _ => .error { name := "TimeoutError", status := none }) false
        = (.thrown { name := "TimeoutError", status := none }, 3, [1000, 2000]) ∧
    groqRequest (fun _ => .error { name := "APIError", status := some 401 }) false
        = (.thrown { name := "APIError", status := some 401 }, 1, []) := by
  constructor
  · obtain ⟨e, he, hrun, -⟩ :=
      (C3_retry_and_auth (fun _ => .error { name := "TimeoutError", status := none }) false).1
        (fun i _ => ⟨{ name := "TimeoutError", status := none }, rfl, by decide, by decide⟩)
    obtain rfl : ({ name := "TimeoutError", status := none } : JsError) = e :=
      by injection he
    exact hrun
  · exact (C3_retry_and_auth (fun _ => .error { name := "APIError", status := some 401 }) false).2
      { name := "APIError", status := some 401 } rfl (by decide) (by decide)

/-- The trigger scan loop is first-match-wins over the ordered trigger
list. -/
theorem scanTriggers_eq_find (lowerMessage : String) :
    ∀ ts : List (List String × String),
      scanTriggers lowerMessage ts =
        (ts.find? (fun t => t.1.any (fun kw => strIncludes lowerMessage kw))).map Prod.snd := by
  intro ts
  induction ts with
  | nil => rfl
  | cons t rest ih =>
    obtain ⟨kws, reason⟩ := t
    by_cases h : kws.any (fun kw => strIncludes lowerMessage kw) = true
    · simp [scanTriggers, List.find?, h]
    · simp only [scanTriggers, List.find?]
      rw [if_neg (by simpa using h)]
      simp only [Bool.not_eq_true] at h
      rw [h]
      exact ih

/-- Claim C9: in the fallback action path the escalation-trigger groups are
scanned in their fixed order with the first matching group winning (so a
message matching both a security keyword and a VIP keyword escalates with
the security reason), and when no group matches a High urgency forces
escalation with the generic supervisor-attention reason. -/
theorem C9_escalation_scan_order (message category urgency : String) :
    ((match escalationTriggers.find?
        (fun t => t.1.any (fun kw => strIncludes (jsToLower message) kw)) with
      | some t =>
        (getFallbackRecommendation message category urgency).escalate = true ∧
        (getFallbackRecommendation message category urgency).escalateReason = some t.2
      | none =>
        if urgency = "High" then
          (getFallbackRecommendation message category urgency).escalate = true ∧
          (getFallbackRecommendation message category urgency).escalateReason =
            some HIGH_URGENCY_REASON
        else
          (getFallbackRecommendation message category urgency).escalate = false ∧
          (getFallbackRecommendation message category urgency).escalateReason = none) :
      Prop) ∧
    (strIncludes (jsToLower message) "security" = true →
      (getFallbackRecommendation message category urgency).escalate = true ∧
      (getFallbackRecommendation message category urgency).escalateReason =
        some "Security concern requires immediate escalation to security team") := by
  constructor
  · rcases hfind : escalationTriggers.find?
        (fun t => t.1.any (fun kw => strIncludes (jsToLower message) kw)) with _ | t
    · simp only [getFallbackRecommendation, scanTriggers_eq_find, hfind, Option.map_none']
      by_cases hu : urgency = "High"
      · simp [hu]
      · simp [hu]
    · simp only [getFallbackRecommendation, scanTriggers_eq_find, hfind, Option.map_some']
      by_cases hu : urgency = "High" <;> simp [hu]
  · intro hsec
    have hscan : scanTriggers (jsToLower message) escalationTriggers =
        some "Security concern requires immediate escalation to security team" := by
      simp [scanTriggers, escalationTriggers, hsec]
    simp only [getFallbackRecommendation, hscan]
    by_cases hu : urgency = "High" <;> simp [hu]

/-- Witness for claim C9: a message containing both a security keyword and
a VIP keyword escalates with the security reason. -/
theorem C9_witness :
    (getFallbackRecommendation "A security problem for our vip customer"
        "Technical Problem" "Low").escalate = true ∧
    (getFallbackRecommendation "A security problem for our vip customer"
        "Technical Problem" "Low").escalateReason =
      some "Security concern requires immediate escalation to security team" :=
  (C9_escalation_scan_order "A security problem for our vip customer"
    "Technical Problem" "Low").2 (by decide)

/-- Claim C2 concerns cancellation mid-analysis.  The code does not behave
as the claim states: each engine catches the distinguished cancellation
error thrown by `groqRequest` in the same `catch` that absorbs every other
failure and substitutes its deterministic fallback result, so the
orchestrator never observes the cancellation (its `Request cancelled`
branch is unreachable through the engines) and a fully fabricated record is
still assembled and persisted.  This theorem evaluates the code at a
failing input: with the cancellation observed by all three stages, the
categorization engine returns the fallback result instead of propagating,
and `handleAnalyze` persists one fabricated `TriageRecord`. -/
theorem C2_cancelled_analysis_persists_record :
    categorizeMessage "The server is down!" .cancelled 0 =
      getFallbackCategorization "The server is down!" 0 ∧
    calculateUrgency "The server is down!" none .cancelled =
      getFallbackUrgency "The server is down!" none (detectSignals "The server is down!") ∧
    (handleAnalyze [] "The server is down!" .cancelled .cancelled .cancelled 0).1.length = 1 ∧
    (handleAnalyze [] "The server is down!" .cancelled .cancelled .cancelled 0).2.isSome = true ∧
    (analyzeRecord "The server is down!" .cancelled .cancelled .cancelled 0).category =
      "Technical Problem" ∧
    (analyzeRecord "The server is down!" .cancelled .cancelled .cancelled 0).urgency = "High" ∧
    (analyzeRecord "The server is down!" .cancelled .cancelled .cancelled 0).escalate = true := by
  refine ⟨rfl, rfl, rfl, rfl, ?_, ?_, ?_⟩ <;> decide

/-- Claim C5, counterexample: for the message "Can you add a dark mode
feature?" with every remote call failing, the assembled urgency level is
"Medium" (score 40), not "Low" as the claim states: the orchestrator passes
no category to the urgency engine, so the Feature Request adjustment never
applies and only the question adjustment (minus 10) fires. -/
theorem C5_counterexample :
    (analyzeRecord "Can you add a dark mode feature?"
        (.thrown { name := "Error", status := none })
        (.thrown { name := "Error", status := none })
        (.thrown { name := "Error", status := none }) 0).urgency = "Medium" ∧
    (analyzeRecord "Can you add a dark mode feature?"
        (.thrown { name := "Error", status := none })
        (.thrown { name := "Error", status := none })
        (.thrown { name := "Error", status := none }) 0).urgencyScore = 40 ∧
    (analyzeRecord "Can you add a dark mode feature?"
        (.thrown { name := "Error", status := none })
        (.thrown { name := "Error", status := none })
        (.thrown { name := "Error", status := none }) 0).urgency ≠ "Low" := by
  refine ⟨?_, ?_, ?_⟩ <;> decide

/-- Claim C5, amended: for the message "Can you add a dark mode feature?"
analyzed while every remote call fails with a non-cancellation error, the
assembled result has category "Feature Request" and escalate false as
claimed, but urgency level "Medium" with score 40 (the orchestrator passes
no category to the urgency engine, so the Feature Request reduction does
not apply; only the question-format reduction fires). -/
theorem C5_amended_feature_request_scenario (e1 e2 e3 : JsError) (rand : Nat) :
    (analyzeRecord "Can you add a dark mode feature?"
        (.thrown e1) (.thrown e2) (.thrown e3) rand).category = "Feature Request" ∧
    (analyzeRecord "Can you add a dark mode feature?"
        (.thrown e1) (.thrown e2) (.thrown e3) rand).urgency = "Medium" ∧
    (analyzeRecord "Can you add a dark mode feature?"
        (.thrown e1) (.thrown e2) (.thrown e3) rand).urgencyScore = 40 ∧
    (analyzeRecord "Can you add a dark mode feature?"
        (.thrown e1) (.thrown e2) (.thrown e3) rand).escalate = false :=
  ⟨rfl, rfl, rfl, rfl⟩

/-- Claim C4, counterexample: for the reply whose decoded object carries the
unrecognized category "Billing issue" (wrong case), the raw reply does
contain a fixed category name case-insensitively, yet the engine returns
category "Unknown" with the default confidence 0.8 rather than the first
prose match with confidence 0.7: the prose search only runs when decoding
fails entirely. -/
theorem C4_counterexample :
    strIncludes (jsToLower "\x7b\"category\": \"Billing issue\"\x7d") "billing issue" = true ∧
    (categorizeMessage "m" (.ok "\x7b\"category\": \"Billing issue\"\x7d") 0).category
        = "Unknown" ∧
    (categorizeMessage "m" (.ok "\x7b\"category\": \"Billing issue\"\x7d") 0).category
        ∉ validCategories ∧
    (categorizeMessage "m" (.ok "\x7b\"category\": \"Billing issue\"\x7d") 0).confidence
        = 0.8 ∧
    (categorizeMessage "m" (.ok "\x7b\"category\": \"Billing issue\"\x7d") 0).category
        ≠ "Billing Issue" ∧
    (categorizeMessage "m" (.ok "\x7b\"category\": \"Billing issue\"\x7d") 0).confidence
        ≠ 0.7 := by
  have hconf : (categorizeMessage "m" (.ok "\x7b\"category\": \"Billing issue\"\x7d") 0).confidence
      = 0.8 := rfl
  refine ⟨by decide, by decide, by decide, hconf, by decide, ?_⟩
  rw [hconf]
  norm_num

/-- Claim C4, amended: a reply that decodes to an object whose category is
not in the fixed set yields category "Unknown" (confidence defaulting
through the decoded confidence field, 0.8 when absent or falsy); only when
no object can be decoded from the reply does the engine search the raw
reply case-insensitively for a fixed category name, returning the first
match (in category-definition order) with confidence 0.7, and falling back
to deterministic scoring when no name occurs. -/
theorem C4_amended_unknown_category (content message : String) (rand : Nat) :
    (∀ parsed s, parseJsonResponse content = some parsed →
      jsLookup parsed "category" = some (.str s) →
      validCategories.contains s = false →
      (categorizeMessage message (.ok content) rand).category = "Unknown" ∧
      (categorizeMessage message (.ok content) rand).confidence =
        jsRatField parsed "confidence" 0.8) ∧
    (parseJsonResponse content = none →
      ((match validCategories.find?
          (fun c => strIncludes (jsToLower content) (jsToLower c)) with
        | some c => categorizeMessage message (.ok content) rand =
            { category := c, reasoning := content, confidence := 0.7 }
        | none => categorizeMessage message (.ok content) rand =
            getFallbackCategorization message rand) : Prop)) := by
  constructor
  · intro parsed s hparse hcat hvalid
    have hv : s ∉ validCategories := by simpa using hvalid
    simp [categorizeMessage, categorizeFromContent, hparse, hcat, hv]
  · intro hparse
    rcases hfind : validCategories.find?
        (fun c => strIncludes (jsToLower content) (jsToLower c)) with _ | c
    · simp [categorizeMessage, categorizeFromContent, hparse, extractCategoryFromProse, hfind]
    · simp [categorizeMessage, categorizeFromContent, hparse, extractCategoryFromProse, hfind]

/-- Witness for claim C4 at the reply from the counterexample and at an
undecodable prose reply naming a category. -/
theorem C4_witness :
    (categorizeMessage "m" (.ok "\x7b\"category\": \"Billing issue\"\x7d") 0).category
        = "Unknown" ∧
    categorizeMessage "m" (.ok "This is clearly a Technical Problem with the app") 0 =
      { category := "Technical Problem",
        reasoning := "This is clearly a Technical Problem with the app",
        confidence := 0.7 } := by
  constructor
  · exact ((C4_amended_unknown_category "\x7b\"category\": \"Billing issue\"\x7d" "m" 0).1
      (.obj (.cons "category" (.str "Billing issue") .nil)) "Billing issue"
      (by decide) (by decide) (by decide)).1
  · exact (C4_amended_unknown_category "This is clearly a Technical Problem with the app"
      "m" 0).2 (by decide)

/-- Accumulating keyword scores never decrease below the accumulator. -/
theorem foldl_score_le (lm : String) :
    ∀ (kws : List String) (acc : Nat),
      acc ≤ kws.foldl
        (fun a kw => if strIncludes lm kw then a + jsSpaceWordCount kw else a) acc := by
  intro kws
  induction kws with
  | nil => intro acc; exact le_rfl
  | cons k tl ih =>
    intro acc
    refine le_trans ?_ (ih _)
    dsimp only
    split_ifs <;> omega

/-- A keyword list containing a keyword found in the message scores at
least one. -/
theorem keywordScore_pos (lm : String) (kw : String) :
    ∀ (kws : List String) (acc : Nat), kw ∈ kws → strIncludes lm kw = true →
      1 ≤ kws.foldl
        (fun a k => if strIncludes lm k then a + jsSpaceWordCount k else a) acc := by
  intro kws
  induction kws with
  | nil => intro acc h; exact absurd h (List.not_mem_nil kw)
  | cons k tl ih =>
    intro acc hmem hinc
    rcases List.mem_cons.mp hmem with rfl | htl
    · simp only [List.foldl_cons]
      refine le_trans ?_ (foldl_score_le lm tl _)
      rw [if_pos hinc]
      simp only [jsSpaceWordCount]
      omega
    · simp only [List.foldl_cons]
      exact ih _ htl hinc

/-- The adjusted per-category scores of `getFallbackCategorization` equal
the specification formula: the guard requiring both the technical and the
billing raw scores to be positive is redundant, because a message
containing "payment" already scores on the billing list and one containing
"fail" or "error" scores on the technical list. -/
theorem adjustedCategoryScores_spec (message : String) :
    adjustedCategoryScores (jsToLower message) =
      [("Billing Issue", specCategoryScore message "Billing Issue"),
       ("Technical Problem", specCategoryScore message "Technical Problem"),
       ("Feature Request", specCategoryScore message "Feature Request"),
       ("General Inquiry", specCategoryScore message "General Inquiry")] := by
  have hraw : rawCategoryScores (jsToLower message) =
      [("Billing Issue",
        keywordScore (jsToLower message) ((CATEGORY_KEYWORDS.lookup "Billing Issue").getD [])),
       ("Technical Problem",
        keywordScore (jsToLower message) ((CATEGORY_KEYWORDS.lookup "Technical Problem").getD [])),
       ("Feature Request",
        keywordScore (jsToLower message) ((CATEGORY_KEYWORDS.lookup "Feature Request").getD [])),
       ("General Inquiry",
        keywordScore (jsToLower message) ((CATEGORY_KEYWORDS.lookup "General Inquiry").getD []))] :=
    rfl
  by_cases hcb : (strIncludes (jsToLower message) "payment" &&
      (strIncludes (jsToLower message) "fail" || strIncludes (jsToLower message) "error")) = true
  · have hp : strIncludes (jsToLower message) "payment" = true := by
      simpa using (Bool.and_eq_true_iff.mp hcb).1
    have hfe : strIncludes (jsToLower message) "fail" = true ∨
        strIncludes (jsToLower message) "error" = true := by
      simpa [Bool.or_eq_true_iff] using (Bool.and_eq_true_iff.mp hcb).2
    have hBpos : 1 ≤ keywordScore (jsToLower message)
        ((CATEGORY_KEYWORDS.lookup "Billing Issue").getD []) :=
      keywordScore_pos (jsToLower message) "payment" _ 0 (by decide) hp
    have hTpos : 1 ≤ keywordScore (jsToLower message)
        ((CATEGORY_KEYWORDS.lookup "Technical Problem").getD []) := by
      rcases hfe with hf | he
      · exact keywordScore_pos (jsToLower message) "fail" _ 0 (by decide) hf
      · exact keywordScore_pos (jsToLower message) "error" _ 0 (by decide) he
    simp only [adjustedCategoryScores, hraw]
    rw [if_pos ⟨by simpa [scoreOf, List.lookup] using hTpos,
                by simpa [scoreOf, List.lookup] using hBpos⟩,
        if_pos hcb]
    simp [specCategoryScore, hp, hfe]
  · simp only [adjustedCategoryScores, hraw]
    have hnot : ¬(strIncludes (jsToLower message) "payment" = true ∧
        (strIncludes (jsToLower message) "fail" = true ∨
         strIncludes (jsToLower message) "error" = true)) := by
      intro h
      exact hcb (by simp [h.1, Bool.or_eq_true_iff.mpr h.2])
    by_cases hg : scoreOf
        [("Billing Issue",
          keywordScore (jsToLower message) ((CATEGORY_KEYWORDS.lookup "Billing Issue").getD [])),
         ("Technical Problem",
          keywordScore (jsToLower message) ((CATEGORY_KEYWORDS.lookup "Technical Problem").getD [])),
         ("Feature Request",
          keywordScore (jsToLower message) ((CATEGORY_KEYWORDS.lookup "Feature Request").getD [])),
         ("General Inquiry",
          keywordScore (jsToLower message) ((CATEGORY_KEYWORDS.lookup "General Inquiry").getD []))]
        "Technical Problem" > 0 ∧ scoreOf
        [("Billing Issue",
          keywordScore (jsToLower message) ((CATEGORY_KEYWORDS.lookup "Billing Issue").getD [])),
         ("Technical Problem",
          keywordScore (jsToLower message) ((CATEGORY_KEYWORDS.lookup "Technical Problem").getD [])),
         ("Feature Request",
          keywordScore (jsToLower message) ((CATEGORY_KEYWORDS.lookup "Feature Request").getD [])),
         ("General Inquiry",
          keywordScore (jsToLower message) ((CATEGORY_KEYWORDS.lookup "General Inquiry").getD []))]
        "Billing Issue" > 0
    · rw [if_pos hg, if_neg hcb]
      simp [specCategoryScore, hnot]
    · rw [if_neg hg]
      simp [specCategoryScore, hnot]

/-- Claim C6: fallback categorization computes per-category keyword scores
(word count of each keyword found case-insensitively), adds the fixed
billing bonus of 2 when the message couples "payment" with "fail" or
"error", picks the category with the strictly highest score (General
Inquiry when all scores are zero), and assigns confidence 0.8, 0.6 or 0.4
according to the winning score. -/
theorem C6_fallback_categorization (message : String) (rand : Nat) :
    ((∀ c ∈ validCategories, specCategoryScore message c = 0) →
      (getFallbackCategorization message rand).category = "General Inquiry") ∧
    (∀ c ∈ validCategories,
      (∀ c2 ∈ validCategories, c2 ≠ c →
        specCategoryScore message c2 < specCategoryScore message c) →
      (getFallbackCategorization message rand).category = c) ∧
    ((getFallbackCategorization message rand).confidence =
      if specCategoryScore message (getFallbackCategorization message rand).category > 2
      then (0.8 : ℚ)
      else if specCategoryScore message (getFallbackCategorization message rand).category > 0
      then 0.6 else 0.4) := by
  refine ⟨?_, ?_, ?_⟩
  · intro h
    have hb := h "Billing Issue" (by decide)
    have ht := h "Technical Problem" (by decide)
    have hf := h "Feature Request" (by decide)
    have hg := h "General Inquiry" (by decide)
    simp only [getFallbackCategorization, adjustedCategoryScores_spec, hb, ht, hf, hg]
    decide
  · intro c hc hdom
    simp only [validCategories, List.mem_cons, List.not_mem_nil, or_false] at hc
    rcases hc with rfl | rfl | rfl | rfl
    · have h1 := hdom "Technical Problem" (by decide) (by decide)
      have h2 := hdom "Feature Request" (by decide) (by decide)
      have h3 := hdom "General Inquiry" (by decide) (by decide)
      simp only [getFallbackCategorization, adjustedCategoryScores_spec, List.foldl_cons,
        List.foldl_nil]
      split_ifs <;> simp_all <;> omega
    · have h1 := hdom "Billing Issue" (by decide) (by decide)
      have h2 := hdom "Feature Request" (by decide) (by decide)
      have h3 := hdom "General Inquiry" (by decide) (by decide)
      simp only [getFallbackCategorization, adjustedCategoryScores_spec, List.foldl_cons,
        List.foldl_nil]
      split_ifs <;> simp_all <;> omega
    · have h1 := hdom "Billing Issue" (by decide) (by decide)
      have h2 := hdom "Technical Problem" (by decide) (by decide)
      have h3 := hdom "General Inquiry" (by decide) (by decide)
      simp only [getFallbackCategorization, adjustedCategoryScores_spec, List.foldl_cons,
        List.foldl_nil]
      split_ifs <;> simp_all <;> omega
    · have h1 := hdom "Billing Issue" (by decide) (by decide)
      have h2 := hdom "Technical Problem" (by decide) (by decide)
      have h3 := hdom "Feature Request" (by decide) (by decide)
      simp only [getFallbackCategorization, adjustedCategoryScores_spec, List.foldl_cons,
        List.foldl_nil]
      split_ifs <;> simp_all <;> omega
  · simp only [getFallbackCategorization, adjustedCategoryScores_spec, List.foldl_cons,
      List.foldl_nil]
    split_ifs <;> simp_all <;> omega

/-- Witness for claim C6: the message "the payment failed with an error"
scores billing 1 + bonus 2 = 3 against technical 2, so Billing Issue wins
with confidence 0.8. -/
theorem C6_witness :
    (getFallbackCategorization "the payment failed with an error" 0).category
        = "Billing Issue" ∧
    (getFallbackCategorization "the payment failed with an error" 0).confidence = 0.8 := by
  have h := C6_fallback_categorization "the payment failed with an error" 0
  have hcat := h.2.1 "Billing Issue" (by decide) (by decide)
  refine ⟨hcat, ?_⟩
  rw [h.2.2, hcat, if_pos (by decide)]

/-! ## Decoder round-trip lemmas (claim C8) -/

theorem skipWs_cons (c : Char) (l : List Char) (h : wsb c = false) :
    skipWs (c :: l) = c :: l := by
  simp [skipWs, h]

theorem dchar_isDigit (r : Nat) (h : r < 10) : (dchar r).isDigit = true := by
  interval_cases r <;> decide

theorem dchar_toNat (r : Nat) (h : r < 10) : (dchar r).toNat - 48 = r := by
  interval_cases r <;> decide

theorem pDigitsAcc_stop (rest : List Char) (acc : Nat) (h : digitHead rest = false) :
    pDigitsAcc rest acc = (acc, rest) := by
  cases rest with
  | nil => rfl
  | cons c l =>
    simp only [digitHead] at h
    simp [pDigitsAcc, h]

theorem natDigitsAux_eq (n : Nat) (acc : List Char) :
    natDigitsAux n acc = if n = 0 then acc else natDigitsAux (n / 10) (dchar (n % 10) :: acc) := by
  conv_lhs => rw [natDigitsAux]
  rfl

theorem natDigitsAux_acc (n : Nat) : ∀ acc, natDigitsAux n acc = natDigitsAux n [] ++ acc := by
  induction n using Nat.strong_induction_on with
  | _ n ih =>
    intro acc
    by_cases h : n = 0
    · subst h
      simp [natDigitsAux_eq]
    · rw [natDigitsAux_eq, if_neg h, natDigitsAux_eq n [], if_neg h]
      rw [ih (n / 10) (Nat.div_lt_self (Nat.pos_of_ne_zero h) (by norm_num))
            (dchar (n % 10) :: acc),
          ih (n / 10) (Nat.div_lt_self (Nat.pos_of_ne_zero h) (by norm_num))
            [dchar (n % 10)]]
      simp

theorem natDigitsAux_digits (n : Nat) : ∀ c ∈ natDigitsAux n [], c.isDigit = true := by
  induction n using Nat.strong_induction_on with
  | _ n ih =>
    intro c hc
    by_cases h : n = 0
    · subst h
      rw [natDigitsAux_eq] at hc
      simp at hc
    · rw [natDigitsAux_eq, if_neg h, natDigitsAux_acc] at hc
      rcases List.mem_append.mp hc with h1 | h2
      · exact ih (n / 10) (Nat.div_lt_self (Nat.pos_of_ne_zero h) (by norm_num)) c h1
      · rcases List.mem_singleton.mp h2 with rfl
        exact dchar_isDigit (n % 10) (Nat.mod_lt n (by norm_num))

theorem natDigitsAux_ne_nil (n : Nat) (h : n ≠ 0) : natDigitsAux n [] ≠ [] := by
  rw [natDigitsAux_eq, if_neg h, natDigitsAux_acc]
  simp

theorem pDigitsAcc_run (n : Nat) : n ≠ 0 → ∀ (acc : Nat) (rest : List Char),
    pDigitsAcc (natDigitsAux n [] ++ rest) acc =
      pDigitsAcc rest (acc * 10 ^ (natDigitsAux n []).length + n) := by
  induction n using Nat.strong_induction_on with
  | _ n ih =>
    intro hn acc rest
    by_cases hq : n / 10 = 0
    · have hlt : n < 10 := by omega
      have hme : n % 10 = n := Nat.mod_eq_of_lt hlt
      have hdec : natDigitsAux n [] = [dchar (n % 10)] := by
        rw [natDigitsAux_eq, if_neg hn, natDigitsAux_eq, if_pos hq]
      rw [hdec]
      simp only [List.cons_append, List.nil_append, List.length_cons, List.length_nil,
        pDigitsAcc, zero_add, pow_one]
      rw [if_pos (dchar_isDigit (n % 10) (Nat.mod_lt n (by norm_num))),
          dchar_toNat (n % 10) (Nat.mod_lt n (by norm_num)), hme]
      simp
    · have hdec : natDigitsAux n [] = natDigitsAux (n / 10) [] ++ [dchar (n % 10)] := by
        rw [natDigitsAux_eq, if_neg hn, natDigitsAux_acc]
      rw [hdec, List.append_assoc, List.singleton_append,
          ih (n / 10) (Nat.div_lt_self (Nat.pos_of_ne_zero hn) (by norm_num)) hq acc
            (dchar (n % 10) :: rest)]
      simp only [pDigitsAcc]
      rw [if_pos (dchar_isDigit (n % 10) (Nat.mod_lt n (by norm_num))),
          dchar_toNat (n % 10) (Nat.mod_lt n (by norm_num))]
      have hnm : 10 * (n / 10) + n % 10 = n := Nat.div_add_mod n 10
      have harith : (acc * 10 ^ (natDigitsAux (n / 10) []).length + n / 10) * 10 + n % 10 =
          acc * 10 ^ ((natDigitsAux (n / 10) []).length + 1) + (10 * (n / 10) + n % 10) := by
        rw [pow_succ]
        ring
      rw [harith, hnm]
      have hlen : (natDigitsAux (n / 10) []).length + 1 =
          (natDigitsAux (n / 10) [] ++ [dchar (n % 10)]).length := by
        simp
      rw [hlen]

theorem pNat_natDigits (n : Nat) (rest : List Char) (h : digitHead rest = false) :
    pNat (natDigits n ++ rest) = some (n, rest) := by
  by_cases hn : n = 0
  · subst hn
    have h0 : natDigits 0 ++ rest = '0' :: rest := by
      simp [natDigits]
    rw [h0]
    simp only [pNat]
    rw [if_pos (by decide)]
    simp only [pDigitsAcc]
    rw [if_pos (by decide), show (0 : Nat) * 10 + ('0'.toNat - 48) = 0 from by decide,
        pDigitsAcc_stop rest 0 h]
  · rcases hsplit : natDigitsAux n [] with _ | ⟨c, cs⟩
    · exact absurd hsplit (natDigitsAux_ne_nil n hn)
    · have hcd : c.isDigit = true :=
        natDigitsAux_digits n c (by rw [hsplit]; exact List.mem_cons_self c cs)
      have hrun := pDigitsAcc_run n hn 0 rest
      rw [hsplit, List.cons_append] at hrun
      have hnd : natDigits n ++ rest = c :: (cs ++ rest) := by
        rw [natDigits, if_neg hn, hsplit, List.cons_append]
      rw [hnd]
      simp only [pNat]
      rw [if_pos hcd, hrun, pDigitsAcc_stop rest _ h]
      simp

theorem pStr_quote (l : List Char) : pStr ('"' :: l) = some ([], l) := by
  cases l with
  | nil => rfl
  | cons a l2 => rfl

theorem pStr_backslash (e u : Char) (l : List Char) (hu : unesc e = some u) :
    pStr ('\\' :: e :: l) = (pStr l).map (fun p => (u :: p.1, p.2)) := by
  have hstep : pStr ('\\' :: e :: l) =
      (match unesc e with
       | some u => (pStr l).map (fun p => (u :: p.1, p.2))
       | none => none) := rfl
  rw [hstep, hu]

theorem pStr_other (c : Char) (l : List Char) (h1 : ¬c = '"') (h2 : ¬c = '\\') :
    pStr (c :: l) = (pStr l).map (fun p => (c :: p.1, p.2)) := by
  cases l with
  | nil => rw [pStr.eq_2, if_neg h1, if_neg h2]
  | cons a l2 => rw [pStr.eq_3, if_neg h1, if_neg h2]

theorem pStr_ser (cs : List Char) : ∀ rest, pStr (escList cs ++ '"' :: rest) = some (cs, rest) := by
  induction cs with
  | nil =>
    intro rest
    have h0 : escList [] ++ '"' :: rest = '"' :: rest := by
      simp [escList]
    rw [h0, pStr_quote]
  | cons c tl ih =>
    intro rest
    have hcons : escList (c :: tl) ++ '"' :: rest = escChar c ++ (escList tl ++ '"' :: rest) := by
      simp [escList]
    rw [hcons]
    by_cases h1 : c = '"'
    · subst h1
      rw [show escChar '"' = ['\\', '"'] from rfl, List.cons_append, List.cons_append,
          List.nil_append, pStr_backslash '"' '"' _ (by decide), ih]
      rfl
    · by_cases h2 : c = '\\'
      · subst h2
        rw [show escChar '\\' = ['\\', '\\'] from rfl, List.cons_append, List.cons_append,
            List.nil_append, pStr_backslash '\\' '\\' _ (by decide), ih]
        rfl
      · by_cases h3 : c = '\n'
        · subst h3
          rw [show escChar '\n' = ['\\', 'n'] from rfl, List.cons_append, List.cons_append,
              List.nil_append, pStr_backslash 'n' '\n' _ (by decide), ih]
          rfl
        · by_cases h4 : c = '\t'
          · subst h4
            rw [show escChar '\t' = ['\\', 't'] from rfl, List.cons_append, List.cons_append,
                List.nil_append, pStr_backslash 't' '\t' _ (by decide), ih]
            rfl
          · by_cases h5 : c = '\r'
            · subst h5
              rw [show escChar '\r' = ['\\', 'r'] from rfl, List.cons_append, List.cons_append,
                  List.nil_append, pStr_backslash 'r' '\r' _ (by decide), ih]
              rfl
            · have hesc : escChar c = [c] := by
                simp only [escChar]
                rw [if_neg h1, if_neg h2, if_neg h3, if_neg h4, if_neg h5]
              rw [hesc, List.singleton_append, pStr_other c _ h1 h2, ih]
              rfl

theorem pVal_obj (f : Nat) (l : List Char) :
    pVal (f + 1) ('\x7b' :: l) =
      (match pFields f (skipWs l) with
       | some (fs, r) => some (.obj fs, r)
       | none => none) := by
  rw [pVal.eq_2, skipWs_cons _ _ (by decide)]
  simp

theorem pVal_arr (f : Nat) (l : List Char) :
    pVal (f + 1) ('[' :: l) =
      (match pElems f (skipWs l) with
       | some (xs, r) => some (.arr xs, r)
       | none => none) := by
  rw [pVal.eq_2, skipWs_cons _ _ (by decide)]
  simp

theorem pVal_quote (f : Nat) (l : List Char) :
    pVal (f + 1) ('"' :: l) =
      (match pStr l with
       | some (s, r) => some (.str (String.mk s), r)
       | none => none) := by
  rw [pVal.eq_2, skipWs_cons _ _ (by decide)]
  simp

theorem pVal_true (f : Nat) (r : List Char) :
    pVal (f + 1) ('t' :: 'r' :: 'u' :: 'e' :: r) = some (.bool true, r) := by
  rw [pVal.eq_2, skipWs_cons _ _ (by decide)]
  simp

theorem pVal_false (f : Nat) (r : List Char) :
    pVal (f + 1) ('f' :: 'a' :: 'l' :: 's' :: 'e' :: r) = some (.bool false, r) := by
  rw [pVal.eq_2, skipWs_cons _ _ (by decide)]
  simp

theorem pVal_null (f : Nat) (r : List Char) :
    pVal (f + 1) ('n' :: 'u' :: 'l' :: 'l' :: r) = some (.null, r) := by
  rw [pVal.eq_2, skipWs_cons _ _ (by decide)]
  simp

theorem pVal_neg (f : Nat) (l : List Char) :
    pVal (f + 1) ('-' :: l) =
      (match pNat l with
       | some (n, r) => some (.num (-(n : Int)), r)
       | none => none) := by
  rw [pVal.eq_2, skipWs_cons _ _ (by decide)]
  simp

theorem pVal_digit (f : Nat) (c : Char) (l : List Char)
    (h : c ∈ ['0', '1', '2', '3', '4', '5', '6', '7', '8', '9']) :
    pVal (f + 1) (c :: l) =
      (match pNat (c :: l) with
       | some (n, r) => some (.num (n : Int), r)
       | none => none) := by
  fin_cases h <;>
  · rw [pVal.eq_2, skipWs_cons _ _ (by decide)]
    simp

theorem dchar_mem (r : Nat) (h : r < 10) :
    dchar r ∈ ['0', '1', '2', '3', '4', '5', '6', '7', '8', '9'] := by
  interval_cases r <;> decide

theorem natDigitsAux_mem (n : Nat) :
    ∀ c ∈ natDigitsAux n [], c ∈ ['0', '1', '2', '3', '4', '5', '6', '7', '8', '9'] := by
  induction n using Nat.strong_induction_on with
  | _ n ih =>
    intro c hc
    by_cases h : n = 0
    · subst h
      rw [natDigitsAux_eq] at hc
      simp at hc
    · rw [natDigitsAux_eq, if_neg h, natDigitsAux_acc] at hc
      rcases List.mem_append.mp hc with h1 | h2
      · exact ih (n / 10) (Nat.div_lt_self (Nat.pos_of_ne_zero h) (by norm_num)) c h1
      · rcases List.mem_singleton.mp h2 with rfl
        exact dchar_mem (n % 10) (Nat.mod_lt n (by norm_num))

theorem natDigits_ne_nil (m : Nat) : natDigits m ≠ [] := by
  by_cases h : m = 0
  · subst h
    simp [natDigits]
  · rw [natDigits, if_neg h]
    exact natDigitsAux_ne_nil m h

theorem natDigits_mem (m : Nat) :
    ∀ c ∈ natDigits m, c ∈ ['0', '1', '2', '3', '4', '5', '6', '7', '8', '9'] := by
  intro c hc
  by_cases h : m = 0
  · subst h
    simp [natDigits] at hc
    simp [hc]
  · rw [natDigits, if_neg h] at hc
    exact natDigitsAux_mem m c hc

theorem serVal_ne_nil (v : JsonVal) : serVal v ≠ [] := by
  cases v with
  | str s => simp [serVal]
  | num n =>
    simp only [serVal]
    split_ifs
    · simp
    · exact natDigits_ne_nil _
  | bool b => cases b <;> simp [serVal]
  | null => simp [serVal]
  | arr xs => simp [serVal]
  | obj fs => simp [serVal]

theorem serVal_head_ok (v : JsonVal) :
    ∀ c l, serVal v = c :: l → wsb c = false ∧ ¬c = ']' := by
  intro c l hsv
  cases v with
  | str s =>
    simp only [serVal] at hsv
    obtain ⟨rfl, -⟩ := List.cons.injEq .. ▸ hsv
    exact ⟨by decide, by decide⟩
  | num n =>
    simp only [serVal] at hsv
    split_ifs at hsv
    · obtain ⟨rfl, -⟩ := List.cons.injEq .. ▸ hsv
      exact ⟨by decide, by decide⟩
    · have hmem : c ∈ ['0', '1', '2', '3', '4', '5', '6', '7', '8', '9'] := by
        refine natDigits_mem n.toNat c ?_
        rw [hsv]
        exact List.mem_cons_self c l
      fin_cases hmem <;> exact ⟨by decide, by decide⟩
  | bool b =>
    cases b <;> simp only [serVal] at hsv <;>
      obtain ⟨rfl, -⟩ := List.cons.injEq .. ▸ hsv <;>
      exact ⟨by decide, by decide⟩
  | null =>
    simp only [serVal] at hsv
    obtain ⟨rfl, -⟩ := List.cons.injEq .. ▸ hsv
    exact ⟨by decide, by decide⟩
  | arr xs =>
    simp only [serVal] at hsv
    obtain ⟨rfl, -⟩ := List.cons.injEq .. ▸ hsv
    exact ⟨by decide, by decide⟩
  | obj fs =>
    simp only [serVal] at hsv
    obtain ⟨rfl, -⟩ := List.cons.injEq .. ▸ hsv
    exact ⟨by decide, by decide⟩

theorem skipWs_serVal (v : JsonVal) (rest : List Char) :
    skipWs (serVal v ++ rest) = serVal v ++ rest := by
  rcases hsv : serVal v with _ | ⟨c, l⟩
  · exact absurd hsv (serVal_ne_nil v)
  · rw [List.cons_append]
    exact skipWs_cons c (l ++ rest) (serVal_head_ok v c l hsv).1

theorem skipWs_serElems_append (xs : JsonList) (l : List Char) :
    skipWs (serElems xs ++ ']' :: l) = serElems xs ++ ']' :: l := by
  cases xs with
  | nil =>
    rw [show serElems .nil ++ ']' :: l = ']' :: l from by simp [serElems]]
    exact skipWs_cons _ _ (by decide)
  | cons v tl =>
    cases tl with
    | nil =>
      rw [show serElems (.cons v .nil) ++ ']' :: l = serVal v ++ (']' :: l) from by
        simp [serElems]]
      exact skipWs_serVal v _
    | cons w tl2 =>
      rw [show serElems (.cons v (.cons w tl2)) ++ ']' :: l =
            serVal v ++ (',' :: (serElems (.cons w tl2) ++ ']' :: l)) from by
        simp [serElems]]
      exact skipWs_serVal v _

theorem serVal_append_ne_rbracket (v : JsonVal) (l : List Char) :
    ∀ r', serVal v ++ l = ']' :: r' → False := by
  intro r' heq
  rcases hsv : serVal v with _ | ⟨c, cl⟩
  · exact serVal_ne_nil v hsv
  · rw [hsv, List.cons_append, List.cons.injEq] at heq
    exact (serVal_head_ok v c cl hsv).2 heq.1

theorem skipWs_serFields_append (fs : JsonFields) (l : List Char) :
    skipWs (serFields fs ++ '\x7d' :: l) = serFields fs ++ '\x7d' :: l := by
  cases fs with
  | nil =>
    rw [show serFields .nil ++ '\x7d' :: l = '\x7d' :: l from by simp [serFields]]
    exact skipWs_cons _ _ (by decide)
  | cons k v tl =>
    cases tl with
    | nil =>
      rw [show serFields (.cons k v .nil) ++ '\x7d' :: l =
            '"' :: (escList k.data ++ ('"' :: ':' :: serVal v) ++ '\x7d' :: l) from by
        simp [serFields]]
      exact skipWs_cons _ _ (by decide)
    | cons k2 w tl2 =>
      rw [show serFields (.cons k v (.cons k2 w tl2)) ++ '\x7d' :: l =
            '"' :: ((escList k.data ++ ('"' :: ':' :: serVal v)) ++
              (',' :: serFields (.cons k2 w tl2)) ++ '\x7d' :: l) from by
        simp [serFields]]
      exact skipWs_cons _ _ (by decide)

mutual

theorem pVal_ser : ∀ (v : JsonVal) (rest : List Char) (f : Nat),
    fuelNeeded v ≤ f → digitHead rest = false →
    pVal f (serVal v ++ rest) = some (v, rest)
  | .str s, rest, f, hf, _ => by
    obtain ⟨f', rfl⟩ : ∃ f', f = f' + 1 :=
      ⟨f - 1, by simp only [fuelNeeded] at hf; omega⟩
    rw [show serVal (.str s) ++ rest = '"' :: (escList s.data ++ ('"' :: rest)) from by
      simp [serVal]]
    simp only [pVal_quote, pStr_ser]
  | .num n, rest, f, hf, hd => by
    obtain ⟨f', rfl⟩ : ∃ f', f = f' + 1 :=
      ⟨f - 1, by simp only [fuelNeeded] at hf; omega⟩
    by_cases hneg : n < 0
    · rw [show serVal (.num n) ++ rest = '-' :: (natDigits n.natAbs ++ rest) from by
        simp [serVal, hneg]]
      rw [pVal_neg, pNat_natDigits _ _ hd]
      show some (JsonVal.num (-(n.natAbs : Int)), rest) = some (JsonVal.num n, rest)
      rw [show -((n.natAbs : Int)) = n from by omega]
    · rcases hsplit : natDigits n.toNat with _ | ⟨c, cs⟩
      · exact absurd hsplit (natDigits_ne_nil _)
      · have hmem := natDigits_mem n.toNat c (by rw [hsplit]; exact List.mem_cons_self c cs)
        rw [show serVal (.num n) ++ rest = c :: (cs ++ rest) from by
          simp [serVal, hneg, hsplit]]
        rw [pVal_digit _ c _ hmem,
            show c :: (cs ++ rest) = natDigits n.toNat ++ rest from by
              rw [hsplit, List.cons_append],
            pNat_natDigits _ _ hd]
        show some (JsonVal.num ((n.toNat : Int)), rest) = some (JsonVal.num n, rest)
        rw [show ((n.toNat : Int)) = n from by omega]
  | .bool true, rest, f, hf, _ => by
    obtain ⟨f', rfl⟩ : ∃ f', f = f' + 1 :=
      ⟨f - 1, by simp only [fuelNeeded] at hf; omega⟩
    rw [show serVal (.bool true) ++ rest = 't' :: 'r' :: 'u' :: 'e' :: rest from by
      simp [serVal]]
    rw [pVal_true]
  | .bool false, rest, f, hf, _ => by
    obtain ⟨f', rfl⟩ : ∃ f', f = f' + 1 :=
      ⟨f - 1, by simp only [fuelNeeded] at hf; omega⟩
    rw [show serVal (.bool false) ++ rest = 'f' :: 'a' :: 'l' :: 's' :: 'e' :: rest from by
      simp [serVal]]
    rw [pVal_false]
  | .null, rest, f, hf, _ => by
    obtain ⟨f', rfl⟩ : ∃ f', f = f' + 1 :=
      ⟨f - 1, by simp only [fuelNeeded] at hf; omega⟩
    rw [show serVal .null ++ rest = 'n' :: 'u' :: 'l' :: 'l' :: rest from by
      simp [serVal]]
    rw [pVal_null]
  | .arr xs, rest, f, hf, _ => by
    obtain ⟨f', rfl⟩ : ∃ f', f = f' + 1 :=
      ⟨f - 1, by simp only [fuelNeeded] at hf; omega⟩
    have hf' : fuelElemsNeeded xs ≤ f' := by
      simp only [fuelNeeded] at hf
      omega
    rw [show serVal (.arr xs) ++ rest = '[' :: (serElems xs ++ (']' :: rest)) from by
      simp [serVal]]
    simp only [pVal_arr, skipWs_serElems_append, pElems_ser xs rest f' hf']
  | .obj fs, rest, f, hf, _ => by
    obtain ⟨f', rfl⟩ : ∃ f', f = f' + 1 :=
      ⟨f - 1, by simp only [fuelNeeded] at hf; omega⟩
    have hf' : fuelFieldsNeeded fs ≤ f' := by
      simp only [fuelNeeded] at hf
      omega
    rw [show serVal (.obj fs) ++ rest = '\x7b' :: (serFields fs ++ ('\x7d' :: rest)) from by
      simp [serVal]]
    simp only [pVal_obj, skipWs_serFields_append, pFields_ser fs rest f' hf']

theorem pElems_ser : ∀ (xs : JsonList) (rest : List Char) (f : Nat),
    fuelElemsNeeded xs ≤ f →
    pElems f (serElems xs ++ ']' :: rest) = some (xs, rest)
  | .nil, rest, f, hf => by
    obtain ⟨f', rfl⟩ : ∃ f', f = f' + 1 :=
      ⟨f - 1, by simp only [fuelElemsNeeded] at hf; omega⟩
    rw [show serElems .nil ++ ']' :: rest = ']' :: rest from by simp [serElems]]
    exact pElems.eq_2 f' rest
  | .cons v .nil, rest, f, hf => by
    obtain ⟨f', rfl⟩ : ∃ f', f = f' + 1 :=
      ⟨f - 1, by simp only [fuelElemsNeeded] at hf; omega⟩
    have hfv : fuelNeeded v ≤ f' := by
      simp only [fuelElemsNeeded] at hf
      omega
    rw [show serElems (.cons v .nil) ++ ']' :: rest = serVal v ++ (']' :: rest) from by
      simp [serElems]]
    rw [pElems.eq_3 _ f' (serVal_append_ne_rbracket v (']' :: rest)),
        pVal_ser v (']' :: rest) f' hfv (by rfl)]
    rfl
  | .cons v (.cons w tl2), rest, f, hf => by
    obtain ⟨f', rfl⟩ : ∃ f', f = f' + 1 :=
      ⟨f - 1, by simp only [fuelElemsNeeded] at hf; omega⟩
    have hfv : fuelNeeded v ≤ f' := by
      simp only [fuelElemsNeeded] at hf
      omega
    have hftl : fuelElemsNeeded (.cons w tl2) ≤ f' := by
      simp only [fuelElemsNeeded] at hf ⊢
      omega
    rw [show serElems (.cons v (.cons w tl2)) ++ ']' :: rest =
          serVal v ++ (',' :: (serElems (.cons w tl2) ++ ']' :: rest)) from by
      simp [serElems]]
    rw [pElems.eq_3 _ f'
          (serVal_append_ne_rbracket v (',' :: (serElems (.cons w tl2) ++ ']' :: rest))),
        pVal_ser v (',' :: (serElems (.cons w tl2) ++ ']' :: rest)) f' hfv (by rfl)]
    simp only [skipWs_cons ',' (serElems (.cons w tl2) ++ ']' :: rest) (by decide),
        skipWs_serElems_append (.cons w tl2) rest,
        pElems_ser (.cons w tl2) rest f' hftl]
  
theorem pFields_ser : ∀ (fs : JsonFields) (rest : List Char) (f : Nat),
    fuelFieldsNeeded fs ≤ f →
    pFields f (serFields fs ++ '\x7d' :: rest) = some (fs, rest)
  | .nil, rest, f, hf => by
    obtain ⟨f', rfl⟩ : ∃ f', f = f' + 1 :=
      ⟨f - 1, by simp only [fuelFieldsNeeded] at hf; omega⟩
    rw [show serFields .nil ++ '\x7d' :: rest = '\x7d' :: rest from by simp [serFields]]
    exact pFields.eq_2 f' rest
  | .cons k v .nil, rest, f, hf => by
    obtain ⟨f', rfl⟩ : ∃ f', f = f' + 1 :=
      ⟨f - 1, by simp only [fuelFieldsNeeded] at hf; omega⟩
    have hfv : fuelNeeded v ≤ f' := by
      simp only [fuelFieldsNeeded] at hf
      omega
    rw [show serFields (.cons k v .nil) ++ '\x7d' :: rest =
          '"' :: (escList k.data ++ ('"' :: (':' :: (serVal v ++ ('\x7d' :: rest))))) from by
      simp [serFields]]
    rw [pFields.eq_3, pStr_ser k.data]
    simp only [skipWs_cons ':' (serVal v ++ ('\x7d' :: rest)) (by decide),
        skipWs_serVal v ('\x7d' :: rest),
        pVal_ser v ('\x7d' :: rest) f' hfv (by rfl),
        skipWs_cons '\x7d' rest (by decide)]
  | .cons k v (.cons k2 w tl2), rest, f, hf => by
    obtain ⟨f', rfl⟩ : ∃ f', f = f' + 1 :=
      ⟨f - 1, by simp only [fuelFieldsNeeded] at hf; omega⟩
    have hfv : fuelNeeded v ≤ f' := by
      simp only [fuelFieldsNeeded] at hf
      omega
    have hftl : fuelFieldsNeeded (.cons k2 w tl2) ≤ f' := by
      simp only [fuelFieldsNeeded] at hf ⊢
      omega
    rw [show serFields (.cons k v (.cons k2 w tl2)) ++ '\x7d' :: rest =
          '"' :: (escList k.data ++ ('"' :: (':' :: (serVal v ++
            (',' :: (serFields (.cons k2 w tl2) ++ '\x7d' :: rest)))))) from by
      simp [serFields]]
    rw [pFields.eq_3, pStr_ser k.data]
    simp only [skipWs_cons ':'
          (serVal v ++ (',' :: (serFields (.cons k2 w tl2) ++ '\x7d' :: rest))) (by decide),
        skipWs_serVal v (',' :: (serFields (.cons k2 w tl2) ++ '\x7d' :: rest)),
        pVal_ser v (',' :: (serFields (.cons k2 w tl2) ++ '\x7d' :: rest)) f' hfv (by rfl),
        skipWs_cons ',' (serFields (.cons k2 w tl2) ++ '\x7d' :: rest) (by decide),
        skipWs_serFields_append (.cons k2 w tl2) rest,
        pFields_ser (.cons k2 w tl2) rest f' hftl]

end


mutual

theorem fuelNeeded_le : ∀ v : JsonVal, fuelNeeded v ≤ (serVal v).length
  | .str s => by
    simp [fuelNeeded, serVal]
  | .num n => by
    simp only [fuelNeeded, serVal]
    split_ifs
    · simp
    · exact List.length_pos.mpr (natDigits_ne_nil _)
  | .bool b => by cases b <;> simp [fuelNeeded, serVal]
  | .null => by simp [fuelNeeded, serVal]
  | .arr xs => by
    have h := fuelElems_le xs
    simp only [fuelNeeded, serVal, List.length_cons, List.length_append, List.length_singleton]
    omega
  | .obj fs => by
    have h := fuelFields_le fs
    simp only [fuelNeeded, serVal, List.length_cons, List.length_append, List.length_singleton]
    omega

theorem fuelElems_le : ∀ xs : JsonList, fuelElemsNeeded xs ≤ (serElems xs).length + 1
  | .nil => by simp [fuelElemsNeeded, serElems]
  | .cons v .nil => by
    have h := fuelNeeded_le v
    simp only [fuelElemsNeeded, serElems]
    omega
  | .cons v (.cons w tl) => by
    have h1 := fuelNeeded_le v
    have h2 := fuelElems_le (.cons w tl)
    simp only [fuelElemsNeeded, serElems, List.length_append, List.length_cons] at h2 ⊢
    omega

theorem fuelFields_le : ∀ fs : JsonFields, fuelFieldsNeeded fs ≤ (serFields fs).length + 1
  | .nil => by simp [fuelFieldsNeeded, serFields]
  | .cons k v .nil => by
    have h := fuelNeeded_le v
    simp only [fuelFieldsNeeded, serFields, List.length_cons, List.length_append]
    omega
  | .cons k v (.cons k2 w tl2) => by
    have h1 := fuelNeeded_le v
    have h2 := fuelFields_le (.cons k2 w tl2)
    simp only [fuelFieldsNeeded, serFields, List.length_cons, List.length_append] at h2 ⊢
    omega

end

theorem takeWhile_append_stop (p : Char → Bool) :
    ∀ (l1 : List Char) (c : Char) (l2 : List Char),
      (∀ x ∈ l1, p x = true) → p c = false →
      (l1 ++ c :: l2).takeWhile p = l1 := by
  intro l1
  induction l1 with
  | nil =>
    intro c l2 _ hc
    simp [List.takeWhile, hc]
  | cons a t ih =>
    intro c l2 hall hc
    have ha : p a = true := hall a (List.mem_cons_self a t)
    simp only [List.cons_append, List.takeWhile, ha, List.append_eq]
    rw [ih c l2 (fun x hx => hall x (List.mem_cons_of_mem a hx)) hc]

theorem takeWhile_all (p : Char → Bool) :
    ∀ (l : List Char), (∀ x ∈ l, p x = true) → l.takeWhile p = l := by
  intro l
  induction l with
  | nil => intro _; rfl
  | cons a t ih =>
    intro hall
    have ha : p a = true := hall a (List.mem_cons_self a t)
    simp only [List.takeWhile, ha]
    rw [ih (fun x hx => hall x (List.mem_cons_of_mem a hx))]

theorem extractBraced_of_shape (pre mid post : List Char)
    (hpre : ∀ c ∈ pre, ¬c = '\x7b' ∧ ¬c = '\x7d')
    (hpost : ∀ c ∈ post, ¬c = '\x7b' ∧ ¬c = '\x7d')
    (hhead : ∃ l, mid = '\x7b' :: l) (hlast : ∃ l, mid = l ++ ['\x7d'])
    (hlen : 2 ≤ mid.length) :
    extractBraced (pre ++ mid ++ post) = some mid := by
  obtain ⟨lh, hh⟩ := hhead
  obtain ⟨ll, hl⟩ := hlast
  have hi : ((pre ++ mid ++ post).takeWhile (fun c => c ≠ '\x7b')).length = pre.length := by
    rw [List.append_assoc, hh, List.cons_append]
    rw [takeWhile_append_stop _ pre '\x7b' (lh ++ post)
          (fun x hx => by simp [(hpre x hx).1]) (by simp)]
  have hj : ((pre ++ mid ++ post).reverse.takeWhile (fun c => c ≠ '\x7d')).length
      = post.length := by
    have hrev : (pre ++ mid ++ post).reverse =
        post.reverse ++ ('\x7d' :: (ll.reverse ++ pre.reverse)) := by
      rw [hl]
      simp
    rw [hrev, takeWhile_append_stop _ post.reverse '\x7d' (ll.reverse ++ pre.reverse)
          (fun x hx => by simp [(hpost x (List.mem_reverse.mp hx)).2]) (by simp),
        List.length_reverse]
  simp only [extractBraced, hi, hj]
  have hlentot : (pre ++ mid ++ post).length = pre.length + mid.length + post.length := by
    simp only [List.length_append]
  rw [hlentot]
  rw [if_pos (by omega)]
  congr 1
  have hcut : pre.length + mid.length + post.length - post.length = pre.length + mid.length := by
    omega
  rw [hcut]
  rw [show pre ++ mid ++ post = (pre ++ mid) ++ post from by simp,
      show pre.length + mid.length = (pre ++ mid).length from by simp,
      List.take_left, List.drop_left]

theorem parseJson_serVal_obj (fs : JsonFields) :
    parseJson (serVal (.obj fs)) = some (.obj fs) := by
  unfold parseJson
  have hval : pVal ((serVal (.obj fs)).length + 1) (serVal (.obj fs)) = some (.obj fs, []) := by
    rw [show serVal (JsonVal.obj fs) = serVal (JsonVal.obj fs) ++ ([] : List Char) from by simp]
    rw [pVal_ser (.obj fs) [] ((serVal (JsonVal.obj fs) ++ ([] : List Char)).length + 1)
          (by simpa using le_trans (fuelNeeded_le (.obj fs)) (by simp)) rfl]
  rw [hval]
  rfl

theorem parseJsonResponse_wrapped (fs : JsonFields) (pre post : String)
    (hpre : ∀ c ∈ pre.data, ¬c = '\x7b' ∧ ¬c = '\x7d')
    (hpost : ∀ c ∈ post.data, ¬c = '\x7b' ∧ ¬c = '\x7d') :
    parseJsonResponse (pre ++ jsonStringify (.obj fs) ++ post) = some (.obj fs) := by
  unfold parseJsonResponse
  have hdata : (pre ++ jsonStringify (.obj fs) ++ post).data =
      pre.data ++ serVal (.obj fs) ++ post.data := by
    simp [jsonStringify, String.data_append]
  rw [hdata,
      extractBraced_of_shape pre.data (serVal (.obj fs)) post.data hpre hpost
        ⟨serFields fs ++ ['\x7d'], by simp [serVal]⟩
        ⟨'\x7b' :: serFields fs, by simp [serVal]⟩
        (by simp [serVal])]
  show parseJson (serVal (.obj fs)) = some (.obj fs)
  exact parseJson_serVal_obj fs

theorem parseJsonResponse_no_brace (s : String) (h : '\x7b' ∉ s.data) :
    parseJsonResponse s = none := by
  unfold parseJsonResponse
  have htake : s.data.takeWhile (fun c => c ≠ '\x7b') = s.data :=
    takeWhile_all _ s.data (fun x hx => by
      simp only [decide_eq_true_eq]
      intro heq
      exact h (heq ▸ hx))
  simp only [extractBraced, htake]
  rw [if_neg (by omega)]

/-- Claim C8: decoding a reply that is the pure serialization of a JSON
object, the serialization wrapped in markdown code fencing, or the
serialization preceded and followed by brace-free prose yields exactly that
object in all three cases; text containing no brace-delimited JSON (and
brace-delimited text that fails to parse) yields absence, and the decoder
is a total function (it never raises). -/
theorem C8_decoder_round_trip :
    (∀ fs : JsonFields, parseJsonResponse (jsonStringify (.obj fs)) = some (.obj fs)) ∧
    (∀ fs : JsonFields,
      parseJsonResponse ("```json\n" ++ jsonStringify (.obj fs) ++ "\n```") = some (.obj fs)) ∧
    (∀ (fs : JsonFields) (pre post : String),
      (∀ c ∈ pre.data, ¬c = '\x7b' ∧ ¬c = '\x7d') →
      (∀ c ∈ post.data, ¬c = '\x7b' ∧ ¬c = '\x7d') →
      parseJsonResponse (pre ++ jsonStringify (.obj fs) ++ post) = some (.obj fs)) ∧
    (∀ s : String, '\x7b' ∉ s.data → parseJsonResponse s = none) ∧
    parseJsonResponse "\x7boops\x7d" = none := by
  refine ⟨?_, ?_, ?_, ?_, by decide⟩
  · intro fs
    have h := parseJsonResponse_wrapped fs "" ""
      (fun c hc => absurd hc (List.not_mem_nil c))
      (fun c hc => absurd hc (List.not_mem_nil c))
    have he : ("" ++ jsonStringify (.obj fs) ++ "" : String) = jsonStringify (.obj fs) := by
      apply String.ext
      simp [String.data_append]
    rw [he] at h
    exact h
  · intro fs
    exact parseJsonResponse_wrapped fs "```json\n" "\n```" (by decide) (by decide)
  · intro fs pre post hpre hpost
    exact parseJsonResponse_wrapped fs pre post hpre hpost
  · exact parseJsonResponse_no_brace

/-- Witness for claim C8 at a concrete object wrapped in prose and a
concrete non-JSON reply. -/
theorem C8_witness :
    parseJsonResponse ("Sure, here it is: " ++
        jsonStringify (.obj (.cons "category" (.str "Billing Issue") .nil)) ++
        " hope that helps") = some (.obj (.cons "category" (.str "Billing Issue") .nil)) ∧
    parseJsonResponse "no json here" = none := by
  refine ⟨?_, ?_⟩
  · exact C8_decoder_round_trip.2.2.1 (.cons "category" (.str "Billing Issue") .nil)
      "Sure, here it is: " " hope that helps" (by decide) (by decide)
  · exact C8_decoder_round_trip.2.2.2.1 "no json here" (by decide)
